import Mathlib

/-!
# Maple bookmarks popup: a shallow embedding of `bookmark/popup.js`

The popup renders the browser's bookmark tree as nested folders, filters it
with a search box and remembers which folders are collapsed.  The
definitions below follow `src/bookmark/popup.js` function by function.

Conventions of the embedding

* A JavaScript string is a Lean `String` (a sequence of `Char`).
* `undefined` / `null` is `none`; a thrown exception is the result `none` of
  a function returning `Option`.
* `localStorage` is a function from keys to optional values.
* What the browser supplies (`toLowerCase`, `toUpperCase`, the `URL` parser,
  the Fuse matcher of `fuse.js`, `navigator`) is a field of `Browser`.
-/

namespace Maple

/-! ## Bookmark tree -/

/-- A `BookmarkTreeNode` as delivered by `chrome.bookmarks.getTree()`: `title`,
`url` and `children` may each be absent. -/
structure BookmarkNode where
  id : String
  title : Option String
  url : Option String
  children : Option (List BookmarkNode)

/-- JavaScript truthiness of an optional string: present and not `''`. -/
def truthy : Option String → Bool
  | none => false
  | some s => s != ""

/-- The test `node.children && node.children.length > 0`. -/
def hasChildren (n : BookmarkNode) : Bool :=
  match n.children with
  | some (_ :: _) => true
  | _ => false

/-- The test `node.url` of `showBookmarks` and of the bulk-open loop. -/
def hasUrl (n : BookmarkNode) : Bool := truthy n.url

mutual
/-- `countFolders(bookmarkNodes)`, popup.js 214-222: the loop adds, for every
element with a non-empty `children` array, one plus the count of that array. -/
def countFolders : List BookmarkNode → Nat
  | [] => 0
  | n :: rest => countFoldersBody n + countFolders rest
/-- The amount one loop iteration of `countFolders` adds to `count`. -/
def countFoldersBody : BookmarkNode → Nat
  | ⟨_, _, _, some (c :: cs)⟩ => 1 + countFolders (c :: cs)
  | ⟨_, _, _, some []⟩ => 0
  | ⟨_, _, _, none⟩ => 0
end

mutual
/-- Every node of a forest, at any depth, in document order (specification
side: used to state what `countFolders` counts). -/
def allNodes : List BookmarkNode → List BookmarkNode
  | [] => []
  | n :: rest => (n :: nodesBelow n) ++ allNodes rest
/-- The nodes strictly below a node. -/
def nodesBelow : BookmarkNode → List BookmarkNode
  | ⟨_, _, _, some cs⟩ => allNodes cs
  | ⟨_, _, _, none⟩ => []
end

/-! ## Strings -/

/-- `s.startsWith(p)`. -/
def startsWith (s p : String) : Bool := p.data.isPrefixOf s.data

/-- Whether `t` occurs in `s` as a contiguous run of characters. -/
def includesChars : List Char → List Char → Bool
  | [], t => t.isEmpty
  | c :: cs, t => t.isPrefixOf (c :: cs) || includesChars cs t

/-- `s.includes(t)`. -/
def includes (s t : String) : Bool := includesChars s.data t.data

/-- Left-to-right scan of `String.prototype.split` for a non-empty separator:
the result starts with the segment being read; when the separator is found
the segment is closed and the rest of the separator (`skip` characters) is
passed over. -/
def splitGo (sep : List Char) : Nat → List Char → List (List Char)
  | _, [] => [[]]
  | skip + 1, _ :: cs => splitGo sep skip cs
  | 0, c :: cs =>
    if sep.isPrefixOf (c :: cs) then [] :: splitGo sep (sep.length - 1) cs
    else
      match splitGo sep 0 cs with
      | seg :: segs => (c :: seg) :: segs
      | [] => [[c]]

/-- `s.split(sep)` for a non-empty separator `sep`. -/
def split (s sep : String) : List String := (splitGo sep.data 0 s.data).map String.mk

/-! ## What the browser supplies -/

/-- Built-ins and libraries the popup calls but does not define. -/
structure Browser where
  /-- `String.prototype.toLowerCase`. -/
  toLowerCase : String → String
  /-- `String.prototype.toUpperCase`. -/
  toUpperCase : String → String
  /-- `new URL(url).host`, `none` when the constructor throws. -/
  urlHost : String → Option String
  /-- `FuseStrMatch(searchTerm, data)`: whether the Fuse search of `fuse.js`
  (threshold 0.5) over `data` returns a result. -/
  FuseStrMatch : String → List String → Bool
  /-- `navigator.language`. -/
  language : String
  /-- `navigator.platform`. -/
  platform : String

/-- Line 12: `browserLanguage`. -/
def browserLanguage (env : Browser) : String :=
  if startsWith env.language "zh" then "zh" else "en"

/-- Line 13: `isMac`, that is `navigator.platform.indexOf('Mac') !== -1`. -/
def isMac (env : Browser) : Bool := includes env.platform "Mac"

/-- Line 14: `keyHint`. -/
def keyHint (env : Browser) : String := if isMac env then "Command" else "Ctrl"

/-- Line 15: `keyText`, the tooltip of a folder title. -/
def keyText (env : Browser) : String :=
  if browserLanguage env == "zh" then "按住 " ++ keyHint env ++ " 可批量打开"
  else "Hold " ++ keyHint env ++ " and click to open all"

/-! ## TitleResolver -/

/-- The expression `x.charAt(0).toUpperCase() + x.slice(1)`. -/
def capitalize (env : Browser) (x : String) : String :=
  env.toUpperCase (String.mk (x.data.take 1)) ++ String.mk (x.data.drop 1)

/-- `getTitleFromUrl(url)`, popup.js 224-233.  `none` stands for a thrown
`TypeError` (indexing past the end of a split, or `new URL` rejecting). -/
def getTitleFromUrl (env : Browser) (url : String) : Option String :=
  if startsWith url "chrome://" || startsWith url "edge://" then
    match (split url "//")[1]? with
    | none => none
    | some rest =>
      match (split rest "/")[0]? with
      | none => none
      | some seg => some (capitalize env seg)
  else
    match env.urlHost url with
    | none => none
    | some host =>
      match (if startsWith host "www." then (split host ".")[1]? else (split host ".")[0]?) with
      | none => none
      | some parts => some (capitalize env parts)

/-- The text after the first occurrence of `//`, if there is one. -/
def afterFirstSlashes : List Char → Option (List Char)
  | [] => none
  | [_] => none
  | a :: b :: rest =>
    if a = '/' ∧ b = '/' then some rest else afterFirstSlashes (b :: rest)

/-- Reference definition of the title resolver, written from its description:
for an internal scheme, the segment between the first `//` and the following
`/` (or the end), capitalised; otherwise the first label of the host once a
leading `www.` is removed, capitalised. -/
def resolveTitle (env : Browser) (url : String) : Option String :=
  if startsWith url "chrome://" || startsWith url "edge://" then
    (afterFirstSlashes url.data).map fun rest =>
      capitalize env (String.mk (rest.takeWhile (fun c => c != '/')))
  else
    (env.urlHost url).map fun host =>
      let stripped := if startsWith host "www." then host.data.drop 4 else host.data
      capitalize env (String.mk (stripped.takeWhile (fun c => c != '.')))

/-! ## Key-value store -/

/-- The contents of `localStorage`. -/
abbrev Storage := String → Option String

/-- `localStorage.getItem(key)`. -/
def Storage.getItem (s : Storage) (key : String) : Option String := s key

/-- `localStorage.setItem(key, value)`. -/
def Storage.setItem (s : Storage) (key value : String) : Storage :=
  fun k => if k = key then some value else s k

/-! ## Rendered elements -/

/-- An `a.bookmark` element: its text content, its `href` and its
`style.display`. -/
structure Anchor where
  text : String
  href : String
  display : String

/-- The parts of a `div.folder`: the text of its `h2` (if any), the tooltip of
the `h2`, the node captured by the click listener of the `h2` (if a listener
was added), `style.marginTop`, `style.display`, and the `style.display` of its
`div.childContainer`. -/
structure FolderAttrs where
  heading : Option String
  hint : Option String
  listener : Option BookmarkNode
  marginTop : String
  display : String
  containerDisplay : String

/-- The elements appended below `#bookmarks`. -/
inductive Elem where
  | bookmark (a : Anchor)
  | folder (f : FolderAttrs) (kids : List Elem)
  | message (text : String)

/-- An element is shown unless its own `style.display` is `none`. -/
def visible (display : String) : Bool := display != "none"

mutual
/-- The `a.bookmark` elements among `es` and their descendants, in document
order. -/
def bookmarksIn : List Elem → List Anchor
  | [] => []
  | e :: es => bookmarksOf e ++ bookmarksIn es
/-- The `a.bookmark` elements of one element (itself included). -/
def bookmarksOf : Elem → List Anchor
  | .bookmark a => [a]
  | .folder _ kids => bookmarksIn kids
  | .message _ => []
end

mutual
/-- The `div.folder` elements among `es` and their descendants, in document
order, each with its child container. -/
def foldersIn : List Elem → List (FolderAttrs × List Elem)
  | [] => []
  | e :: es => foldersOf e ++ foldersIn es
/-- The `div.folder` elements of one element (itself included). -/
def foldersOf : Elem → List (FolderAttrs × List Elem)
  | .bookmark _ => []
  | .folder f kids => (f, kids) :: foldersIn kids
  | .message _ => []
end

/-- No `a.bookmark` sits directly below `#bookmarks`. -/
def noLooseBookmark : List Elem → Bool
  | [] => true
  | .bookmark _ :: _ => false
  | _ :: es => noLooseBookmark es

/-! ## TreeRenderer -/

/-- `createBookmarkItem(bookmarkNode, parent)`, popup.js 144-164: the anchor
appended to `parent`.  Its text is the title, or `getTitleFromUrl(url)` when the
title is missing or empty. -/
def createBookmarkItem (env : Browser) (title url : Option String) : Option Elem :=
  let href := url.getD ""
  match (if truthy title then title else getTitleFromUrl env href) with
  | none => none
  | some text => some (.bookmark { text := text, href := href, display := "" })

/-- `createFolderForBookmarks(bookmarkNode, parent)`, popup.js 166-212, given the
elements `kids` that the call `showBookmarks(bookmarkNode.children, childContainer)`
puts into the child container. -/
def createFolderForBookmarks (env : Browser) (folderCount : Nat) (store : Storage)
    (node : BookmarkNode) (kids : List Elem) : Elem :=
  if folderCount > 1 && truthy node.title then
    let title := node.title.getD ""
    if title != "Favorites Bar" && title != "收藏夹栏" then
      .folder
        { heading := some title
          hint := some (keyText env)
          listener := some node
          marginTop := ""
          display := ""
          containerDisplay := if store.getItem title == some "collapsed" then "none" else "" }
        kids
    else
      .folder
        { heading := some title, hint := none, listener := none
          marginTop := "", display := "", containerDisplay := "" }
        kids
  else
    .folder
      { heading := none, hint := none, listener := none
        marginTop := "8px", display := "", containerDisplay := "" }
      kids

mutual
/-- `showBookmarks(bookmarkNodes, parent)`, popup.js 128-142: the elements
appended to `parent`. -/
def showBookmarks (env : Browser) (folderCount : Nat) (store : Storage) :
    List BookmarkNode → Option (List Elem)
  | [] => some []
  | n :: rest =>
    match showNode env folderCount store n with
    | none => none
    | some here =>
      match showBookmarks env folderCount store rest with
      | none => none
      | some after => some (here ++ after)
/-- One iteration of the loop of `showBookmarks`: a bookmark item when the node
has a url, then a folder when it has a non-empty `children` array. -/
def showNode (env : Browser) (folderCount : Nat) (store : Storage) :
    BookmarkNode → Option (List Elem)
  | ⟨i, t, u, some (c :: cs)⟩ =>
    match (if truthy u then (createBookmarkItem env t u).map (fun e => [e]) else some []) with
    | none => none
    | some item =>
      match showBookmarks env folderCount store (c :: cs) with
      | none => none
      | some kids =>
        some (item ++ [createFolderForBookmarks env folderCount store ⟨i, t, u, some (c :: cs)⟩ kids])
  | ⟨_, t, u, some []⟩ =>
    if truthy u then (createBookmarkItem env t u).map (fun e => [e]) else some []
  | ⟨_, t, u, none⟩ =>
    if truthy u then (createBookmarkItem env t u).map (fun e => [e]) else some []
end

/-- `showEmptyBookmarkMessage()`, popup.js 114-119. -/
def showEmptyBookmarkMessage : Elem := .message "🍁 No bookmarks in the current browser."

/-- `createBookmarks(bookmarkTreeNodes)`, popup.js 104-112, with the global
`folderCount` as an argument: the children of `#bookmarks` afterwards. -/
def createBookmarks (env : Browser) (folderCount : Nat) (store : Storage)
    (bookmarkTreeNodes : List BookmarkNode) : Option (List Elem) :=
  if folderCount == 0 then some [showEmptyBookmarkMessage]
  else showBookmarks env folderCount store bookmarkTreeNodes

/-- The rendering part of `window.onload`, popup.js 81-84: `folderCount` is
`countFolders(bookmarkTreeNodes[0].children)`, then `createBookmarks` runs.
`none` when `bookmarkTreeNodes[0]` or its `children` is missing. -/
def onload (env : Browser) (store : Storage) (bookmarkTreeNodes : List BookmarkNode) :
    Option (List Elem) :=
  match bookmarkTreeNodes with
  | [] => none
  | root :: _ =>
    match root.children with
    | none => none
    | some cs => createBookmarks env (countFolders cs) store bookmarkTreeNodes

/-- Whether the empty-state message is what was rendered. -/
def showsEmptyMessage : Option (List Elem) → Bool
  | some [.message _] => true
  | _ => false

/-! ## Folder title click -/

/-- The fields of the click event the listener reads. -/
structure ClickEvent where
  ctrlKey : Bool
  metaKey : Bool

/-- What a click on a folder title leaves behind: the `style.display` of the
child container, the store, the urls passed to `chrome.tabs.create` in call
order, and whether `preventDefault` was called. -/
structure ClickEffect where
  containerDisplay : String
  store : Storage
  tabs : List String
  defaultPrevented : Bool

/-- The key `localStorage` uses for `bookmarkNode.title`. -/
def storageKey (node : BookmarkNode) : String :=
  match node.title with
  | some t => t
  | none => "undefined"

/-- The loop of lines 193-197: one `chrome.tabs.create` per child with a url. -/
def bulkOpen : List BookmarkNode → List String
  | [] => []
  | c :: cs => if truthy c.url then c.url.getD "" :: bulkOpen cs else bulkOpen cs

/-- The click listener of a folder title, popup.js 181-200. -/
def folderTitleClick (node : BookmarkNode) (event : ClickEvent)
    (containerDisplay : String) (store : Storage) : ClickEffect :=
  let toggled : String × Storage :=
    if containerDisplay == "none" then ("flex", store.setItem (storageKey node) "expanded")
    else ("none", store.setItem (storageKey node) "collapsed")
  if event.ctrlKey || event.metaKey then
    { containerDisplay := toggled.1, store := toggled.2
      tabs := bulkOpen (node.children.getD []), defaultPrevented := true }
  else
    { containerDisplay := toggled.1, store := toggled.2, tabs := [], defaultPrevented := false }

/-- A click on the `h2` of a folder element: `none` when the element has no
listener, otherwise the element afterwards and the effect of the listener. -/
def clickTitle (event : ClickEvent) (store : Storage) : Elem → Option (Elem × ClickEffect)
  | .folder f kids =>
    match f.listener with
    | none => none
    | some node =>
      let r := folderTitleClick node event f.containerDisplay store
      some (.folder { f with containerDisplay := r.containerDisplay } kids, r)
  | _ => none

/-- The modifier the tooltip names: Command on a Mac, Ctrl elsewhere. -/
def modifierHeld (env : Browser) (event : ClickEvent) : Bool :=
  if isMac env then event.metaKey else event.ctrlKey

/-- The `style.display` of the child container of a rendered folder. -/
def containerDisplayOf : Elem → String
  | .folder f _ => f.containerDisplay
  | _ => ""

/-! ## HeightPersistence -/

/-- `setBodyHeightFromStorage()`, popup.js 89-97.  `savedHeight` is the integer
the stored item denotes (`none` when `getItem` returns `null`); the result is
`document.body.style.height` in pixels, `bodyHeight` being its value before. -/
def setBodyHeightFromStorage (savedHeight : Option Int) (bodyHeight : Option Int) :
    Option Int :=
  match savedHeight with
  | none => bodyHeight
  | some h =>
    if h > 30 then
      let applied : Option Int := some h
      if h > 618 then some 618 else applied
    else bodyHeight

/-- `saveCurrentHeight()`, popup.js 99-102, for a measured `clientHeight`. -/
def saveCurrentHeight (clientHeight : Int) (store : Storage) : Storage :=
  store.setItem "savedHeight" (toString (clientHeight - 8))

/-! ## SearchFilter -/

/-- The page state the handlers read and write: `searchInput.value` and the
children of `#bookmarks`. -/
structure Page where
  searchValue : String
  dom : List Elem

/-- The condition of line 48 for one bookmark element. -/
def matchesQuery (env : Browser) (searchTerm : String) (a : Anchor) : Bool :=
  let title := env.toLowerCase a.text
  let url := env.toLowerCase a.href
  includes title searchTerm || includes url searchTerm ||
    env.FuseStrMatch searchTerm [title, url]

mutual
/-- The inner loop of the input listener over the bookmark elements below a
folder, popup.js 43-54, threading `hasVisibleBookmark`. -/
def filterBookmarks (env : Browser) (searchTerm : String) :
    List Elem → Bool → List Elem × Bool
  | [], hasVisibleBookmark => ([], hasVisibleBookmark)
  | e :: es, hasVisibleBookmark =>
    let r := filterBookmark env searchTerm e hasVisibleBookmark
    let rs := filterBookmarks env searchTerm es r.2
    (r.1 :: rs.1, rs.2)
/-- The inner loop on one element and its descendants. -/
def filterBookmark (env : Browser) (searchTerm : String) : Elem → Bool → Elem × Bool
  | .bookmark a, hasVisibleBookmark =>
    if matchesQuery env searchTerm a then (.bookmark { a with display := "flex" }, true)
    else (.bookmark { a with display := "none" }, hasVisibleBookmark)
  | .folder f kids, hasVisibleBookmark =>
    let r := filterBookmarks env searchTerm kids hasVisibleBookmark
    (.folder f r.1, r.2)
  | .message t, hasVisibleBookmark => (.message t, hasVisibleBookmark)
end

/-- The body of the outer loop for one folder element, popup.js 40-56: the
inner loop over every bookmark element below the folder, then the
`style.display` of the folder. -/
def filterFolder (env : Browser) (searchTerm : String) : Elem → Elem
  | .folder f kids =>
    let r := filterBookmarks env searchTerm kids false
    .folder { f with display := if r.2 then "block" else "none" } r.1
  | e => e

/-- Apply `g` to the element at position `i` of a list of siblings. -/
def atIndex (g : Elem → Elem) : Nat → List Elem → List Elem
  | _, [] => []
  | 0, e :: es => g e :: es
  | i + 1, e :: es => e :: atIndex g i es

/-- Apply `g` to the descendant of an element reached by a path of child
positions (the empty path is the element itself). -/
def atPath (g : Elem → Elem) : List Nat → Elem → Elem
  | [], e => g e
  | i :: p, .folder f kids => .folder f (atIndex (fun e => atPath g p e) i kids)
  | _ :: _, e => e

/-- Apply `g` to the element of the document reached by a path. -/
def atDocPath (g : Elem → Elem) : List Nat → List Elem → List Elem
  | [], es => es
  | i :: p, es => atIndex (atPath g p) i es

mutual
/-- The paths of the `div.folder` elements among siblings that start at
position `i`, in document order: `document.getElementsByClassName('folder')`. -/
def folderPathsIn : List Elem → Nat → List (List Nat)
  | [], _ => []
  | e :: es, i => (folderPathsOf e).map (List.cons i) ++ folderPathsIn es (i + 1)
/-- The paths, from an element, of the folders among it and its descendants. -/
def folderPathsOf : Elem → List (List Nat)
  | .bookmark _ => []
  | .folder _ kids => [] :: folderPathsIn kids 0
  | .message _ => []
end

/-- The loop `for (let folder of folders)` of the input listener, popup.js
39-57, run over the document. -/
def filterFolders (env : Browser) (searchTerm : String) (dom : List Elem) : List Elem :=
  (folderPathsIn dom 0).foldl (fun d p => atDocPath (filterFolder env searchTerm) p d) dom

/-- The `input` listener of the search box, popup.js 35-58. -/
def searchInputHandler (env : Browser) (p : Page) : Page :=
  { p with dom := filterFolders env (env.toLowerCase p.searchValue) p.dom }

mutual
/-- Lines 68-70: every bookmark element gets `display = flex`. -/
def showBookmarkItems : List Elem → List Elem
  | [] => []
  | e :: es => showBookmarkItem e :: showBookmarkItems es
/-- Lines 68-70 on one element and its descendants. -/
def showBookmarkItem : Elem → Elem
  | .bookmark a => .bookmark { a with display := "flex" }
  | .folder f kids => .folder f (showBookmarkItems kids)
  | .message t => .message t
end

mutual
/-- Lines 72-74: every folder element gets `display = block`. -/
def showFolders : List Elem → List Elem
  | [] => []
  | e :: es => showFolder e :: showFolders es
/-- Lines 72-74 on one element and its descendants. -/
def showFolder : Elem → Elem
  | .bookmark a => .bookmark a
  | .folder f kids => .folder { f with display := "block" } (showFolders kids)
  | .message t => .message t
end

/-- The `keydown` listener of the window, popup.js 60-76: the page afterwards
and whether `preventDefault` was called. -/
def keydown (key : String) (p : Page) : Page × Bool :=
  if key == "Escape" then
    ({ searchValue := "", dom := showFolders (showBookmarkItems p.dom) }, true)
  else (p, false)

/-! ## The settled state of the filter (proof side)

Running the outer loop folder by folder ends in a state that can be described
in one pass; the theorems below show that `filterFolders` reaches it. -/

/-- What the inner loop does to one bookmark element. -/
def filtered (env : Browser) (searchTerm : String) (a : Anchor) : Anchor :=
  { a with display := if matchesQuery env searchTerm a then "flex" else "none" }

mutual
/-- Elements after an inner loop has passed over them: every bookmark element
is `filtered`, folder attributes are untouched. -/
def markIn (env : Browser) (searchTerm : String) : List Elem → List Elem
  | [] => []
  | e :: es => mark env searchTerm e :: markIn env searchTerm es
/-- One element after an inner loop has passed over it. -/
def mark (env : Browser) (searchTerm : String) : Elem → Elem
  | .bookmark a => .bookmark (filtered env searchTerm a)
  | .folder f kids => .folder f (markIn env searchTerm kids)
  | .message t => .message t
end

mutual
/-- Elements below a folder once the outer loop is over. -/
def settleIn (env : Browser) (searchTerm : String) : List Elem → List Elem
  | [] => []
  | e :: es => settle env searchTerm e :: settleIn env searchTerm es
/-- One element below a folder (or a folder itself) once the outer loop is
over. -/
def settle (env : Browser) (searchTerm : String) : Elem → Elem
  | .bookmark a => .bookmark (filtered env searchTerm a)
  | .folder f kids =>
    .folder
      { f with
        display :=
          if (bookmarksIn kids).any (matchesQuery env searchTerm) then "block" else "none" }
      (settleIn env searchTerm kids)
  | .message t => .message t
end

/-- A child of `#bookmarks` once the outer loop is over: only folders are
reached by the loop. -/
def settleTop (env : Browser) (searchTerm : String) : Elem → Elem
  | .folder f kids => settle env searchTerm (.folder f kids)
  | e => e

/-- A folder element, with its child container, once the outer loop is over. -/
def settlePair (env : Browser) (searchTerm : String) (x : FolderAttrs × List Elem) :
    FolderAttrs × List Elem :=
  ({ x.1 with
      display :=
        if (bookmarksIn x.2).any (matchesQuery env searchTerm) then "block" else "none" },
    settleIn env searchTerm x.2)

/-- The outer loop restricted to a list of folder paths, on siblings. -/
def runList (env : Browser) (searchTerm : String) (ps : List (List Nat)) (es : List Elem) :
    List Elem :=
  ps.foldl (fun d p => atDocPath (filterFolder env searchTerm) p d) es

/-- The outer loop restricted to a list of folder paths, on one element. -/
def runElem (env : Browser) (searchTerm : String) (ps : List (List Nat)) (e : Elem) : Elem :=
  ps.foldl (fun x p => atPath (filterFolder env searchTerm) p x) e

/-! ## A concrete browser for examples -/

/-- Upper-casing of the ASCII letters. -/
def asciiUpper (s : String) : String := String.mk (s.data.map Char.toUpper)

/-- Lower-casing of the ASCII letters. -/
def asciiLower (s : String) : String := String.mk (s.data.map Char.toLower)

/-- The host of a plain `scheme://host/path` url. -/
def simpleHost (url : String) : Option String :=
  match (split url "://")[1]? with
  | none => none
  | some rest => (split rest "/")[0]?

/-- A browser with ASCII case mapping, the host parser `simpleHost` and the
fuzzy matcher `fuzzy`. -/
def asciiBrowser (fuzzy : String → List String → Bool) : Browser where
  toLowerCase := asciiLower
  toUpperCase := asciiUpper
  urlHost := simpleHost
  FuseStrMatch := fuzzy
  language := "en-US"
  platform := "Win32"

/-! ## Example inputs -/

/-- A folder with an empty `children` array. -/
def emptySubfolder : BookmarkNode := ⟨"2", some "Empty", none, some []⟩

/-- A root whose only child is an empty folder. -/
def rootWithEmptySubfolder : BookmarkNode := ⟨"0", some "", none, some [emptySubfolder]⟩

/-- A root folder whose only child is an empty folder. -/
def bookmarksBar : BookmarkNode := ⟨"1", some "Bookmarks bar", none, some [emptySubfolder]⟩

/-- The tree handed to `onload` whose root holds one root folder, which holds
one empty subfolder. -/
def oneRootFolderTree : BookmarkNode := ⟨"0", some "", none, some [bookmarksBar]⟩

/-- A root whose children are two bookmark leaves. -/
def leafOnlyRoot : BookmarkNode :=
  ⟨"0", some "", none,
    some [⟨"1", some "A", some "https://a.example/", none⟩,
          ⟨"2", some "B", some "https://b.example/", none⟩]⟩

/-- A bookmark leaf with a title and a url. -/
def leaf (id title url : String) : BookmarkNode := ⟨id, some title, some url, none⟩

/-- The folder Work: two bookmarks, Email and Docs, and a subfolder holding a
third bookmark. -/
def workFolder : BookmarkNode :=
  ⟨"1", some "Work", none,
    some [leaf "3" "Email" "https://mail.example.com/",
          ⟨"6", some "Old", none, some [leaf "7" "Wiki" "https://wiki.example.com/"]⟩,
          leaf "4" "Docs" "https://docs.example.com/"]⟩

/-- A click without modifier keys. -/
def plainClick : ClickEvent := ⟨false, false⟩

/-- A click with Ctrl held. -/
def ctrlClick : ClickEvent := ⟨true, false⟩

/-- An empty `localStorage`. -/
def emptyStorage : Storage := fun _ => none

/-- A root with the folders Work (Email, Docs) and Play (Chess). -/
def workPlayRoot : BookmarkNode :=
  ⟨"0", some "", none,
    some [⟨"1", some "Work", none,
            some [leaf "3" "Email" "https://mail.example.com/",
                  leaf "4" "Docs" "https://docs.example.com/"]⟩,
          ⟨"2", some "Play", none, some [leaf "5" "Chess" "https://chess.example.org/"]⟩]⟩

/-- The elements rendered for `workPlayRoot`. -/
def workPlayDom : List Elem :=
  (onload (asciiBrowser fun _ _ => false) emptyStorage [workPlayRoot]).getD []

/-- A root with the folder Shelf, whose only child is an empty folder, and the
folder Work holding one bookmark. -/
def nestedEmptyRoot : BookmarkNode :=
  ⟨"0", some "", none,
    some [⟨"1", some "Shelf", none, some [emptySubfolder]⟩,
          ⟨"8", some "Work", none, some [leaf "3" "Email" "https://mail.example.com/"]⟩]⟩

/-- The elements rendered for `nestedEmptyRoot`. -/
def nestedEmptyDom : List Elem :=
  (onload (asciiBrowser fun _ _ => false) emptyStorage [nestedEmptyRoot]).getD []

/-! ## Theorems -/

/-! ### TreeCounter: what `countFolders` counts (C1) -/

mutual
theorem countFolders_eq_countP :
    ∀ nodes : List BookmarkNode, countFolders nodes = (allNodes nodes).countP hasChildren
  | [] => by simp [countFolders, allNodes]
  | n :: rest => by
    have h1 := countFoldersBody_eq n
    have h2 := countFolders_eq_countP rest
    simp [countFolders, allNodes, h1, h2, List.countP_cons]
    omega
theorem countFoldersBody_eq :
    ∀ n : BookmarkNode,
      countFoldersBody n = (if hasChildren n then 1 else 0) + (nodesBelow n).countP hasChildren
  | ⟨_, _, _, some (c :: cs)⟩ => by
    have h := countFolders_eq_countP (c :: cs)
    simp [countFoldersBody, nodesBelow, hasChildren, h]
  | ⟨_, _, _, some []⟩ => by simp [countFoldersBody, nodesBelow, hasChildren, allNodes]
  | ⟨_, _, _, none⟩ => by simp [countFoldersBody, nodesBelow, hasChildren]
end

theorem countFoldersBody_of_not_hasChildren (n : BookmarkNode) (h : hasChildren n = false) :
    countFoldersBody n = 0 ∧ nodesBelow n = [] := by
  rcases n with ⟨i, t, u, _ | _ | ⟨c, cs⟩⟩
  · simp [countFoldersBody, nodesBelow]
  · simp [countFoldersBody, nodesBelow, allNodes]
  · simp [hasChildren] at h

theorem countFolders_eq_zero :
    ∀ nodes : List BookmarkNode, countFolders nodes = 0 → ∀ n ∈ nodes, hasChildren n = false
  | [], _ => by simp
  | m :: rest, h => by
    simp only [countFolders, Nat.add_eq_zero] at h
    intro n hn
    rcases List.mem_cons.mp hn with rfl | hn
    · rcases n with ⟨i, t, u, _ | _ | ⟨c, cs⟩⟩
      · rfl
      · rfl
      · simp [countFoldersBody] at h
    · exact countFolders_eq_zero rest h.2 n hn

theorem allNodes_of_no_children :
    ∀ nodes : List BookmarkNode, (∀ n ∈ nodes, hasChildren n = false) → allNodes nodes = nodes
  | [], _ => by simp [allNodes]
  | m :: rest, h => by
    have h1 := (countFoldersBody_of_not_hasChildren m (h m (List.mem_cons_self _ _))).2
    have h2 := allNodes_of_no_children rest (fun n hn => h n (List.mem_cons_of_mem _ hn))
    simp [allNodes, h1, h2]

/-- C1: for every finite forest, `countFolders` is the number of nodes, at any
depth, whose child sequence is present and non-empty; a node with no child
sequence (as every node with a url has none) or with an empty one adds
nothing. -/
theorem countFolders_counts_nonempty_folders (nodes : List BookmarkNode) :
    countFolders nodes = (allNodes nodes).countP hasChildren ∧
    (∀ n : BookmarkNode, n.children = none ∨ n.children = some [] →
      hasChildren n = false ∧ countFolders [n] = 0) := by
  refine ⟨countFolders_eq_countP nodes, ?_⟩
  intro n hn
  have h : hasChildren n = false := by
    rcases hn with h | h <;> simp [hasChildren, h]
  exact ⟨h, by simp [countFolders, (countFoldersBody_of_not_hasChildren n h).1]⟩

theorem countFolders_counts_nonempty_folders_witness :
    countFolders [workFolder, emptySubfolder] =
      (allNodes [workFolder, emptySubfolder]).countP hasChildren ∧
    (allNodes [workFolder, emptySubfolder]).countP hasChildren = 2 ∧
    emptySubfolder.children = some [] ∧ countFolders [emptySubfolder] = 0 :=
  ⟨(countFolders_counts_nonempty_folders [workFolder, emptySubfolder]).1, by decide, rfl,
   ((countFolders_counts_nonempty_folders []).2 emptySubfolder (Or.inr rfl)).2⟩

/-! ### The empty-state message (C2, C10) -/

theorem showsEmptyMessage_append_folder (item : List Elem) (f : FolderAttrs) (kids : List Elem) :
    showsEmptyMessage (some (item ++ [Elem.folder f kids])) = false := by
  rcases item with _ | ⟨a, _ | ⟨b, l⟩⟩ <;> simp [showsEmptyMessage]

theorem createFolderForBookmarks_is_folder (env : Browser) (folderCount : Nat) (store : Storage)
    (node : BookmarkNode) (kids : List Elem) :
    ∃ f, createFolderForBookmarks env folderCount store node kids = Elem.folder f kids := by
  unfold createFolderForBookmarks
  split
  · dsimp only
    split
    · exact ⟨_, rfl⟩
    · exact ⟨_, rfl⟩
  · exact ⟨_, rfl⟩

theorem showNode_with_children_no_message (env : Browser) (folderCount : Nat) (store : Storage)
    (n : BookmarkNode) (h : hasChildren n = true) :
    showsEmptyMessage
      ((showNode env folderCount store n).map fun here => here ++ []) = false := by
  rcases n with ⟨i, t, u, _ | _ | ⟨c, cs⟩⟩
  · simp [hasChildren] at h
  · simp [hasChildren] at h
  · simp only [showNode]
    cases (if truthy u = true then Option.map (fun e => [e]) (createBookmarkItem env t u)
        else some []) with
    | none => rfl
    | some item =>
      cases showBookmarks env folderCount store (c :: cs) with
      | none => rfl
      | some kids =>
        obtain ⟨f, hf⟩ := createFolderForBookmarks_is_folder env folderCount store
          ⟨i, t, u, some (c :: cs)⟩ kids
        simp only [Option.map_some', List.append_nil, hf]
        exact showsEmptyMessage_append_folder item f kids

theorem onload_shows_message_iff (env : Browser) (store : Storage) (root : BookmarkNode)
    (cs : List BookmarkNode) (hroot : root.children = some cs) :
    showsEmptyMessage (onload env store [root]) = true ↔ countFolders cs = 0 := by
  simp only [onload, hroot, createBookmarks]
  by_cases h0 : countFolders cs = 0
  · simp [h0, showsEmptyMessage, showEmptyBookmarkMessage]
  · have hne : cs ≠ [] := by
      rintro rfl
      exact h0 (by simp [countFolders])
    have hch : hasChildren root = true := by
      cases cs with
      | nil => exact absurd rfl hne
      | cons c cs => simp [hasChildren, hroot]
    have := showNode_with_children_no_message env (countFolders cs) store root hch
    simp only [beq_iff_eq, h0, if_false, showBookmarks, iff_false, Bool.not_eq_true]
    cases hs : showNode env (countFolders cs) store root with
    | none => rfl
    | some here => simpa [hs] using this

/-- C2: for every bookmark tree whose root folder (the single folder below the
root handed to `onload`) contains exactly one subfolder, that subfolder being
empty, and which has no bookmark leaf, `countFolders` on the children of the
root returns 1 (the root folder is counted, its empty subfolder is not), the
empty-state message is not what is rendered, and the rendering holds the two
folder elements of the root and of the root folder and no bookmark item. -/
theorem one_root_folder_with_empty_subfolder (env : Browser) (store : Storage)
    (root top sub : BookmarkNode) (hroot : root.children = some [top])
    (htop : top.children = some [sub]) (hsub : hasChildren sub = false)
    (hrootUrl : hasUrl root = false) (htopUrl : hasUrl top = false)
    (hsubUrl : hasUrl sub = false) :
    root.children.map countFolders = some 1 ∧
    countFolders [sub] = 0 ∧
    showsEmptyMessage (onload env store [root]) = false ∧
    ∃ dom, onload env store [root] = some dom ∧ bookmarksIn dom = [] ∧
      (foldersIn dom).length = 2 := by
  rcases root with ⟨ri, rt, ru, rc⟩
  rcases top with ⟨ti, tt, tu, tc⟩
  cases hroot
  cases htop
  have hru : truthy ru = false := hrootUrl
  have htu : truthy tu = false := htopUrl
  have hcount : countFolders [⟨ti, tt, tu, some [sub]⟩] = 1 := by
    simp [countFolders, countFoldersBody, (countFoldersBody_of_not_hasChildren sub hsub).1]
  have hsubShow : ∀ fc, showNode env fc store sub = some [] := by
    intro fc
    rcases sub with ⟨si, st, su, _ | _ | ⟨c, cs⟩⟩
    · have hsu : truthy su = false := hsubUrl
      simp [showNode, hsu]
    · have hsu : truthy su = false := hsubUrl
      simp [showNode, hsu]
    · simp [hasChildren] at hsub
  have hkids : ∀ fc, showBookmarks env fc store [sub] = some [] := by
    intro fc
    simp [showBookmarks, hsubShow]
  have htopShow : ∀ fc, showBookmarks env fc store [⟨ti, tt, tu, some [sub]⟩] =
      some [createFolderForBookmarks env fc store ⟨ti, tt, tu, some [sub]⟩ []] := by
    intro fc
    have h1 : showNode env fc store ⟨ti, tt, tu, some [sub]⟩ =
        some [createFolderForBookmarks env fc store ⟨ti, tt, tu, some [sub]⟩ []] := by
      rw [showNode, hkids]
      simp [htu]
    rw [showBookmarks, h1]
    simp [showBookmarks]
  have hload : onload env store [⟨ri, rt, ru, some [⟨ti, tt, tu, some [sub]⟩]⟩] =
      some [createFolderForBookmarks env 1 store ⟨ri, rt, ru, some [⟨ti, tt, tu, some [sub]⟩]⟩
        [createFolderForBookmarks env 1 store ⟨ti, tt, tu, some [sub]⟩ []]] := by
    have h1 : showNode env 1 store ⟨ri, rt, ru, some [⟨ti, tt, tu, some [sub]⟩]⟩ =
        some [createFolderForBookmarks env 1 store
          ⟨ri, rt, ru, some [⟨ti, tt, tu, some [sub]⟩]⟩
          [createFolderForBookmarks env 1 store ⟨ti, tt, tu, some [sub]⟩ []]] := by
      rw [showNode, htopShow]
      simp [hru]
    simp only [onload, createBookmarks, hcount]
    rw [showBookmarks, h1]
    simp [showBookmarks]
  obtain ⟨f1, hf1⟩ := createFolderForBookmarks_is_folder env 1 store
    ⟨ri, rt, ru, some [⟨ti, tt, tu, some [sub]⟩]⟩
    [createFolderForBookmarks env 1 store ⟨ti, tt, tu, some [sub]⟩ []]
  obtain ⟨f2, hf2⟩ := createFolderForBookmarks_is_folder env 1 store
    ⟨ti, tt, tu, some [sub]⟩ []
  refine ⟨congrArg some hcount, ?_, ?_, _, hload, ?_, ?_⟩
  · simp [countFolders, (countFoldersBody_of_not_hasChildren sub hsub).1]
  · rw [hload, hf1]
    rfl
  · rw [hf1, hf2]
    simp [bookmarksIn, bookmarksOf]
  · rw [hf1, hf2]
    simp [foldersIn, foldersOf]

theorem one_root_folder_with_empty_subfolder_witness :
    oneRootFolderTree.children.map countFolders = some 1 ∧
    countFolders [emptySubfolder] = 0 ∧
    showsEmptyMessage
      (onload (asciiBrowser fun _ _ => false) emptyStorage [oneRootFolderTree]) = false ∧
    ∃ dom, onload (asciiBrowser fun _ _ => false) emptyStorage [oneRootFolderTree] = some dom ∧
      bookmarksIn dom = [] ∧ (foldersIn dom).length = 2 :=
  one_root_folder_with_empty_subfolder (asciiBrowser fun _ _ => false) emptyStorage
    oneRootFolderTree bookmarksBar emptySubfolder rfl rfl rfl rfl rfl rfl

/-- C10: when every direct child of the root is a folder (no url), the
empty-state message is shown exactly when `countFolders` on the children of the
root is 0, and then no node below the root, at any depth, has a url (no node of
the whole tree, the root being a folder).  Without the hypothesis on the
children this fails: a root holding only bookmark leaves has count 0 and gets
the message. -/
theorem empty_message_means_no_bookmark (env : Browser) (store : Storage)
    (root : BookmarkNode) (cs : List BookmarkNode) (hroot : root.children = some cs)
    (hkids : ∀ c ∈ cs, hasUrl c = false) :
    (showsEmptyMessage (onload env store [root]) = true ↔ countFolders cs = 0) ∧
    (countFolders cs = 0 →
      (∀ n ∈ allNodes cs, hasUrl n = false) ∧
      (hasUrl root = false → ∀ n ∈ allNodes [root], hasUrl n = false)) ∧
    (leafOnlyRoot.children.map countFolders = some 0 ∧
      showsEmptyMessage (onload env store [leafOnlyRoot]) = true ∧
      (allNodes [leafOnlyRoot]).countP hasUrl = 2) := by
  refine ⟨onload_shows_message_iff env store root cs hroot, ?_, ?_⟩
  · intro h0
    have hall := allNodes_of_no_children cs (countFolders_eq_zero cs h0)
    have hbelow : nodesBelow root = cs := by
      rcases root with ⟨i, t, u, ch⟩
      cases hroot
      simp [nodesBelow, hall]
    refine ⟨?_, ?_⟩
    · intro n hn
      rw [hall] at hn
      exact hkids n hn
    · intro hrootUrl n hn
      simp only [allNodes, hbelow, List.append_nil, List.mem_cons] at hn
      rcases hn with rfl | hn
      · exact hrootUrl
      · exact hkids n hn
  · refine ⟨by decide, ?_, by decide⟩
    exact (onload_shows_message_iff env store leafOnlyRoot _ rfl).mpr (by decide)

theorem empty_message_means_no_bookmark_witness :
    (showsEmptyMessage
        (onload (asciiBrowser fun _ _ => false) (fun _ => none) [rootWithEmptySubfolder]) = true ↔
      countFolders [emptySubfolder] = 0) ∧
    (∀ n ∈ allNodes [rootWithEmptySubfolder], hasUrl n = false) :=
  have h := empty_message_means_no_bookmark (asciiBrowser fun _ _ => false) (fun _ => none)
    rootWithEmptySubfolder [emptySubfolder] rfl (by decide)
  ⟨h.1, (h.2.1 (by decide)).2 rfl⟩

/-! ### SearchFilter: the loop reaches the settled state -/

theorem matchesQuery_filtered (env : Browser) (q : String) (a : Anchor) :
    matchesQuery env q (filtered env q a) = matchesQuery env q a := rfl

theorem filtered_filtered (env : Browser) (q : String) (a : Anchor) :
    filtered env q (filtered env q a) = filtered env q a := rfl

mutual
theorem filterBookmarks_eq (env : Browser) (q : String) :
    ∀ (es : List Elem) (hv : Bool),
      filterBookmarks env q es hv =
        (markIn env q es, hv || (bookmarksIn es).any (matchesQuery env q))
  | [], hv => by simp [filterBookmarks, markIn, bookmarksIn]
  | e :: es, hv => by
    simp only [filterBookmarks, filterBookmark_eq env q e hv, filterBookmarks_eq env q es,
      markIn, bookmarksIn, List.any_append, Bool.or_assoc]
theorem filterBookmark_eq (env : Browser) (q : String) :
    ∀ (e : Elem) (hv : Bool),
      filterBookmark env q e hv =
        (mark env q e, hv || (bookmarksOf e).any (matchesQuery env q))
  | .bookmark a, hv => by
    cases h : matchesQuery env q a <;>
      simp [filterBookmark, mark, filtered, bookmarksOf, h]
  | .folder f kids, hv => by
    simp only [filterBookmark, filterBookmarks_eq env q kids hv, mark, bookmarksOf]
  | .message t, hv => by simp [filterBookmark, mark, bookmarksOf]
end

mutual
theorem bookmarksIn_markIn (env : Browser) (q : String) :
    ∀ es : List Elem, bookmarksIn (markIn env q es) = (bookmarksIn es).map (filtered env q)
  | [] => by simp [markIn, bookmarksIn]
  | e :: es => by
    simp [markIn, bookmarksIn, bookmarksOf_mark env q e, bookmarksIn_markIn env q es]
theorem bookmarksOf_mark (env : Browser) (q : String) :
    ∀ e : Elem, bookmarksOf (mark env q e) = (bookmarksOf e).map (filtered env q)
  | .bookmark a => by simp [mark, bookmarksOf]
  | .folder f kids => by simp [mark, bookmarksOf, bookmarksIn_markIn env q kids]
  | .message t => by simp [mark, bookmarksOf]
end

theorem any_matches_map_filtered (env : Browser) (q : String) (l : List Anchor) :
    (l.map (filtered env q)).any (matchesQuery env q) = l.any (matchesQuery env q) := by
  induction l with
  | nil => rfl
  | cons a l ih => simp [List.any_cons, matchesQuery_filtered, ih]

mutual
theorem markIn_markIn (env : Browser) (q : String) :
    ∀ es : List Elem, markIn env q (markIn env q es) = markIn env q es
  | [] => by simp [markIn]
  | e :: es => by simp [markIn, mark_mark env q e, markIn_markIn env q es]
theorem mark_mark (env : Browser) (q : String) :
    ∀ e : Elem, mark env q (mark env q e) = mark env q e
  | .bookmark a => by simp [mark, filtered_filtered]
  | .folder f kids => by simp [mark, markIn_markIn env q kids]
  | .message t => by simp [mark]
end

theorem filterFolder_folder (env : Browser) (q : String) (f : FolderAttrs) (kids : List Elem) :
    filterFolder env q (.folder f kids) =
      .folder
        { f with
          display := if (bookmarksIn kids).any (matchesQuery env q) then "block" else "none" }
        (markIn env q kids) := by
  simp [filterFolder, filterBookmarks_eq]

theorem atIndex_append (g : Elem → Elem) :
    ∀ (pre : List Elem) (x : Elem) (post : List Elem),
      atIndex g pre.length (pre ++ x :: post) = pre ++ g x :: post
  | [], x, post => rfl
  | a :: pre, x, post => by
    simp [atIndex, atIndex_append g pre x post]

theorem runList_append (env : Browser) (q : String) (ps qs : List (List Nat))
    (es : List Elem) :
    runList env q (ps ++ qs) es = runList env q qs (runList env q ps es) := by
  simp [runList, List.foldl_append]

theorem runList_map_cons (env : Browser) (q : String) (pre post : List Elem) :
    ∀ (ps : List (List Nat)) (x : Elem),
      runList env q (ps.map (List.cons pre.length)) (pre ++ x :: post) =
        pre ++ runElem env q ps x :: post
  | [], x => rfl
  | p :: ps, x => by
    have ih := runList_map_cons env q pre post ps (atPath (filterFolder env q) p x)
    simp only [runList, runElem, List.map_cons, List.foldl_cons, atDocPath, atIndex_append] at ih ⊢
    exact ih

theorem runElem_folder (env : Browser) (q : String) (f : FolderAttrs) :
    ∀ (ps : List (List Nat)) (kids : List Elem), (∀ p ∈ ps, p ≠ []) →
      runElem env q ps (.folder f kids) = .folder f (runList env q ps kids)
  | [], kids, _ => rfl
  | p :: ps, kids, h => by
    have hp : p ≠ [] := h p (List.mem_cons_self _ _)
    have ih := fun k => runElem_folder env q f ps k (fun p hp => h p (List.mem_cons_of_mem _ hp))
    cases p with
    | nil => exact absurd rfl hp
    | cons i p =>
      simp only [runElem, runList, List.foldl_cons, atPath, atDocPath] at ih ⊢
      exact ih _

theorem folderPathsIn_ne_nil :
    ∀ (es : List Elem) (i : Nat), ∀ p ∈ folderPathsIn es i, p ≠ []
  | [], _, p, hp => by simp [folderPathsIn] at hp
  | e :: es, i, p, hp => by
    simp only [folderPathsIn, List.mem_append, List.mem_map] at hp
    rcases hp with ⟨x, _, rfl⟩ | hp
    · simp
    · exact folderPathsIn_ne_nil es (i + 1) p hp

mutual
theorem runList_markIn (env : Browser) (q : String) :
    ∀ (es pre : List Elem),
      runList env q (folderPathsIn es pre.length) (pre ++ markIn env q es) =
        pre ++ settleIn env q es
  | [], pre => by simp [folderPathsIn, runList, markIn, settleIn]
  | e :: es, pre => by
    have hA := runElem_mark env q e
    have hB := runList_markIn env q es (pre ++ [settle env q e])
    simp only [List.length_append, List.length_singleton, List.append_assoc,
      List.singleton_append] at hB
    simp only [folderPathsIn, markIn, settleIn, runList_append, runList_map_cons, hA, hB]
theorem runElem_mark (env : Browser) (q : String) :
    ∀ e : Elem, runElem env q (folderPathsOf e) (mark env q e) = settle env q e
  | .bookmark a => by simp [folderPathsOf, runElem, mark, settle]
  | .message t => by simp [folderPathsOf, runElem, mark, settle]
  | .folder f kids => by
    have hB := runList_markIn env q kids []
    simp only [List.length_nil, List.nil_append] at hB
    have hstep : runElem env q ([] :: folderPathsIn kids 0) (.folder f (markIn env q kids)) =
        runElem env q (folderPathsIn kids 0)
          (filterFolder env q (.folder f (markIn env q kids))) := rfl
    simp only [folderPathsOf, mark, settle, hstep, filterFolder_folder, markIn_markIn,
      bookmarksIn_markIn, any_matches_map_filtered]
    rw [runElem_folder env q _ _ _ (folderPathsIn_ne_nil kids 0), hB]
end

theorem runElem_folder_settle (env : Browser) (q : String) (f : FolderAttrs)
    (kids : List Elem) :
    runElem env q (folderPathsOf (.folder f kids)) (.folder f kids) =
      settle env q (.folder f kids) := by
  have hB := runList_markIn env q kids []
  simp only [List.length_nil, List.nil_append] at hB
  have hstep : runElem env q ([] :: folderPathsIn kids 0) (.folder f kids) =
      runElem env q (folderPathsIn kids 0) (filterFolder env q (.folder f kids)) := rfl
  simp only [folderPathsOf, settle, hstep, filterFolder_folder]
  rw [runElem_folder env q _ _ _ (folderPathsIn_ne_nil kids 0), hB]

theorem runElem_settleTop (env : Browser) (q : String) :
    ∀ e : Elem, runElem env q (folderPathsOf e) e = settleTop env q e
  | .bookmark a => by simp [folderPathsOf, runElem, settleTop]
  | .message t => by simp [folderPathsOf, runElem, settleTop]
  | .folder f kids => by
    simp only [settleTop]
    exact runElem_folder_settle env q f kids

theorem runList_settleTop (env : Browser) (q : String) :
    ∀ (es pre : List Elem),
      runList env q (folderPathsIn es pre.length) (pre ++ es) =
        pre ++ es.map (settleTop env q)
  | [], pre => by simp [folderPathsIn, runList]
  | e :: es, pre => by
    have hB := runList_settleTop env q es (pre ++ [settleTop env q e])
    simp only [List.length_append, List.length_singleton, List.append_assoc,
      List.singleton_append] at hB
    simp only [folderPathsIn, runList_append, runList_map_cons, runElem_settleTop, hB,
      List.map_cons]

theorem filterFolders_eq_settleTop (env : Browser) (q : String) (dom : List Elem) :
    filterFolders env q dom = dom.map (settleTop env q) := by
  have h := runList_settleTop env q dom []
  simpa [runList, filterFolders] using h

mutual
theorem foldersIn_settleIn (env : Browser) (q : String) :
    ∀ es : List Elem, foldersIn (settleIn env q es) = (foldersIn es).map (settlePair env q)
  | [] => by simp [settleIn, foldersIn]
  | e :: es => by
    simp [settleIn, foldersIn, foldersOf_settle env q e, foldersIn_settleIn env q es]
theorem foldersOf_settle (env : Browser) (q : String) :
    ∀ e : Elem, foldersOf (settle env q e) = (foldersOf e).map (settlePair env q)
  | .bookmark a => by simp [settle, foldersOf]
  | .folder f kids => by
    simp [settle, foldersOf, foldersIn_settleIn env q kids, settlePair]
  | .message t => by simp [settle, foldersOf]
end

mutual
theorem bookmarksIn_settleIn (env : Browser) (q : String) :
    ∀ es : List Elem, bookmarksIn (settleIn env q es) = (bookmarksIn es).map (filtered env q)
  | [] => by simp [settleIn, bookmarksIn]
  | e :: es => by
    simp [settleIn, bookmarksIn, bookmarksOf_settle env q e, bookmarksIn_settleIn env q es]
theorem bookmarksOf_settle (env : Browser) (q : String) :
    ∀ e : Elem, bookmarksOf (settle env q e) = (bookmarksOf e).map (filtered env q)
  | .bookmark a => by simp [settle, bookmarksOf]
  | .folder f kids => by simp [settle, bookmarksOf, bookmarksIn_settleIn env q kids]
  | .message t => by simp [settle, bookmarksOf]
end

theorem foldersIn_map_settleTop (env : Browser) (q : String) :
    ∀ es : List Elem,
      foldersIn (es.map (settleTop env q)) = (foldersIn es).map (settlePair env q)
  | [] => by simp [foldersIn]
  | e :: es => by
    have ih := foldersIn_map_settleTop env q es
    cases e with
    | bookmark a => simp [settleTop, foldersIn, foldersOf, ih]
    | message t => simp [settleTop, foldersIn, foldersOf, ih]
    | folder f kids =>
      simp [settleTop, foldersIn, foldersOf_settle env q (.folder f kids), ih]

theorem bookmarksIn_map_settleTop (env : Browser) (q : String) :
    ∀ es : List Elem, noLooseBookmark es = true →
      bookmarksIn (es.map (settleTop env q)) = (bookmarksIn es).map (filtered env q)
  | [], _ => by simp [bookmarksIn]
  | e :: es, h => by
    cases e with
    | bookmark a => simp [noLooseBookmark] at h
    | message t =>
      have ih := bookmarksIn_map_settleTop env q es (by simpa [noLooseBookmark] using h)
      simp [settleTop, bookmarksIn, bookmarksOf, ih]
    | folder f kids =>
      have ih := bookmarksIn_map_settleTop env q es (by simpa [noLooseBookmark] using h)
      simp [settleTop, bookmarksIn, bookmarksOf_settle env q (.folder f kids), ih]

theorem foldersIn_searchInputHandler (env : Browser) (p : Page) :
    foldersIn (searchInputHandler env p).dom =
      (foldersIn p.dom).map (settlePair env (env.toLowerCase p.searchValue)) := by
  simp [searchInputHandler, filterFolders_eq_settleTop, foldersIn_map_settleTop]

theorem visible_filtered (env : Browser) (q : String) (a : Anchor) :
    visible (filtered env q a).display = matchesQuery env q a := by
  cases h : matchesQuery env q a <;> simp [filtered, visible, h]

theorem any_visible_map_filtered (env : Browser) (q : String) (l : List Anchor) :
    (l.map (filtered env q)).any (fun b => visible b.display) = l.any (matchesQuery env q) := by
  induction l with
  | nil => rfl
  | cons a l ih =>
    simp only [List.map_cons, List.any_cons, ih, visible_filtered]

theorem settlePair_spec (env : Browser) (q : String) (x : FolderAttrs × List Elem) :
    (∀ b ∈ bookmarksIn (settlePair env q x).2,
      b.display = (if matchesQuery env q b then "flex" else "none")) ∧
    (settlePair env q x).1.display =
      (if (bookmarksIn (settlePair env q x).2).any (fun b => visible b.display) then "block"
       else "none") ∧
    (bookmarksIn (settlePair env q x).2).any (fun b => visible b.display) =
      (bookmarksIn x.2).any (matchesQuery env q) := by
  have hb : bookmarksIn (settlePair env q x).2 = (bookmarksIn x.2).map (filtered env q) :=
    bookmarksIn_settleIn env q x.2
  refine ⟨?_, ?_, ?_⟩
  · intro b hbm
    rw [hb] at hbm
    obtain ⟨a, _, rfl⟩ := List.mem_map.mp hbm
    rfl
  · rw [hb, any_visible_map_filtered]
    rfl
  · rw [hb, any_visible_map_filtered]

theorem includes_empty (s : String) : includes s "" = true := by
  unfold includes
  cases s.data with
  | nil => rfl
  | cons c cs => simp [includesChars, show "".data = [] from rfl]

theorem matchesQuery_empty (env : Browser) (a : Anchor) : matchesQuery env "" a = true := by
  simp [matchesQuery, includes_empty]

mutual
theorem bookmarksIn_of_foldersIn :
    ∀ (es : List Elem) (y : FolderAttrs × List Elem), y ∈ foldersIn es →
      ∀ b ∈ bookmarksIn y.2, b ∈ bookmarksIn es
  | [], y, hy, _, _ => by simp [foldersIn] at hy
  | e :: es, y, hy, b, hb => by
    simp only [foldersIn, List.mem_append] at hy
    simp only [bookmarksIn, List.mem_append]
    rcases hy with hy | hy
    · exact Or.inl (bookmarksOf_of_foldersOf e y hy b hb)
    · exact Or.inr (bookmarksIn_of_foldersIn es y hy b hb)
theorem bookmarksOf_of_foldersOf :
    ∀ (e : Elem) (y : FolderAttrs × List Elem), y ∈ foldersOf e →
      ∀ b ∈ bookmarksIn y.2, b ∈ bookmarksOf e
  | .bookmark a, y, hy, _, _ => by simp [foldersOf] at hy
  | .message t, y, hy, _, _ => by simp [foldersOf] at hy
  | .folder f kids, y, hy, b, hb => by
    simp only [foldersOf, List.mem_cons] at hy
    simp only [bookmarksOf]
    rcases hy with rfl | hy
    · exact hb
    · exact bookmarksIn_of_foldersIn kids y hy b hb
end

theorem bookmarksIn_of_folder (es : List Elem) (y : FolderAttrs × List Elem)
    (hy : y ∈ foldersIn es) (b : Anchor) (hb : b ∈ bookmarksIn y.2) : b ∈ bookmarksIn es :=
  bookmarksIn_of_foldersIn es y hy b hb

theorem folder_projection_settlePair (env : Browser) (q : String)
    (l : List (FolderAttrs × List Elem)) :
    (l.map (settlePair env q)).map
        (fun x => (x.1.heading, (bookmarksIn x.2).map fun b => (b.text, b.href))) =
      l.map (fun x => (x.1.heading, (bookmarksIn x.2).map fun b => (b.text, b.href))) := by
  rw [List.map_map]
  apply List.map_congr_left
  intro x _
  have hb : bookmarksIn (settlePair env q x).2 = (bookmarksIn x.2).map (filtered env q) :=
    bookmarksIn_settleIn env q x.2
  simp only [Function.comp, hb, List.map_map]
  rfl

/-! ### SearchFilter: visibility after a query (C3) -/

theorem search_emai_example (fuzzy : String → List String → Bool)
    (h1 : fuzzy "emai" ["docs", "https://docs.example.com/"] = false)
    (h2 : fuzzy "emai" ["chess", "https://chess.example.org/"] = false) :
    (foldersIn (searchInputHandler (asciiBrowser fuzzy) ⟨"emai", workPlayDom⟩).dom).map
        (fun x => (x.1.heading, visible x.1.display,
          (bookmarksIn x.2).map fun b => (b.text, visible b.display))) =
      [(none, true, [("Email", true), ("Docs", false), ("Chess", false)]),
       (some "Work", true, [("Email", true), ("Docs", false)]),
       (some "Play", false, [("Chess", false)])] := by
  have hd : workPlayDom =
    [.folder ⟨none, none, none, "8px", "", ""⟩
      [.folder ⟨some "Work", some (keyText (asciiBrowser fun _ _ => false)),
          some ⟨"1", some "Work", none,
            some [leaf "3" "Email" "https://mail.example.com/",
                  leaf "4" "Docs" "https://docs.example.com/"]⟩, "", "", ""⟩
        [.bookmark ⟨"Email", "https://mail.example.com/", ""⟩,
         .bookmark ⟨"Docs", "https://docs.example.com/", ""⟩],
       .folder ⟨some "Play", some (keyText (asciiBrowser fun _ _ => false)),
          some ⟨"2", some "Play", none, some [leaf "5" "Chess" "https://chess.example.org/"]⟩,
          "", "", ""⟩
        [.bookmark ⟨"Chess", "https://chess.example.org/", ""⟩]]] := rfl
  have hq : (asciiBrowser fuzzy).toLowerCase "emai" = "emai" :=
    show asciiLower "emai" = "emai" by decide
  have m1 : matchesQuery (asciiBrowser fuzzy) "emai" ⟨"Email", "https://mail.example.com/", ""⟩
      = true := by
    have : includes (asciiLower "Email") "emai" = true := by decide
    simp [matchesQuery, asciiBrowser, this]
  have m2 : matchesQuery (asciiBrowser fuzzy) "emai" ⟨"Docs", "https://docs.example.com/", ""⟩
      = false := by
    have a1 : includes (asciiLower "Docs") "emai" = false := by decide
    have a2 : includes (asciiLower "https://docs.example.com/") "emai" = false := by decide
    have a3 : fuzzy "emai" [asciiLower "Docs", asciiLower "https://docs.example.com/"] = false :=
      h1
    simp [matchesQuery, asciiBrowser, a1, a2, a3]
  have m3 : matchesQuery (asciiBrowser fuzzy) "emai" ⟨"Chess", "https://chess.example.org/", ""⟩
      = false := by
    have a1 : includes (asciiLower "Chess") "emai" = false := by decide
    have a2 : includes (asciiLower "https://chess.example.org/") "emai" = false := by decide
    have a3 : fuzzy "emai" [asciiLower "Chess", asciiLower "https://chess.example.org/"] = false :=
      h2
    simp [matchesQuery, asciiBrowser, a1, a2, a3]
  rw [foldersIn_searchInputHandler, hd]
  simp [hq, foldersIn, foldersOf, bookmarksIn, bookmarksOf, settlePair, settleIn, settle,
    filtered, m1, m2, m3, visible]

/-- C3: after the input listener has run with the lowercased query `q`, for
every folder element and every bookmark element below it, the bookmark is
visible exactly when its lowercased text contains `q`, or its lowercased href
contains `q`, or the fuzzy matcher accepts `q` against the two, and hidden
otherwise; every folder is visible exactly when a bookmark below it is visible;
the query field, the headings and the text and href of the bookmarks are left
as they were.  Hence a query no bookmark matches hides every folder, and on the
folders Work (Email, Docs) and Play (Chess) the query emai leaves Work visible
with only Email visible and hides Play. -/
theorem search_filter_visibility (env : Browser) (p : Page) :
    (searchInputHandler env p).searchValue = p.searchValue ∧
    (foldersIn (searchInputHandler env p).dom).map
        (fun x => (x.1.heading, (bookmarksIn x.2).map fun b => (b.text, b.href))) =
      (foldersIn p.dom).map
        (fun x => (x.1.heading, (bookmarksIn x.2).map fun b => (b.text, b.href))) ∧
    (∀ x ∈ foldersIn (searchInputHandler env p).dom,
      (∀ b ∈ bookmarksIn x.2,
        visible b.display =
          (includes (env.toLowerCase b.text) (env.toLowerCase p.searchValue) ||
           includes (env.toLowerCase b.href) (env.toLowerCase p.searchValue) ||
           env.FuseStrMatch (env.toLowerCase p.searchValue)
             [env.toLowerCase b.text, env.toLowerCase b.href])) ∧
      visible x.1.display = (bookmarksIn x.2).any (fun b => visible b.display)) ∧
    ((∀ b ∈ bookmarksIn p.dom,
        matchesQuery env (env.toLowerCase p.searchValue) b = false) →
      ∀ x ∈ foldersIn (searchInputHandler env p).dom, visible x.1.display = false) ∧
    (∀ fuzzy : String → List String → Bool,
      fuzzy "emai" ["docs", "https://docs.example.com/"] = false →
      fuzzy "emai" ["chess", "https://chess.example.org/"] = false →
      (foldersIn (searchInputHandler (asciiBrowser fuzzy) ⟨"emai", workPlayDom⟩).dom).map
          (fun x => (x.1.heading, visible x.1.display,
            (bookmarksIn x.2).map fun b => (b.text, visible b.display))) =
        [(none, true, [("Email", true), ("Docs", false), ("Chess", false)]),
         (some "Work", true, [("Email", true), ("Docs", false)]),
         (some "Play", false, [("Chess", false)])]) := by
  refine ⟨rfl, ?_, ?_, ?_, search_emai_example⟩
  · rw [foldersIn_searchInputHandler]
    exact folder_projection_settlePair env _ _
  · intro x hx
    rw [foldersIn_searchInputHandler] at hx
    obtain ⟨y, _, rfl⟩ := List.mem_map.mp hx
    have hs := settlePair_spec env (env.toLowerCase p.searchValue) y
    refine ⟨?_, ?_⟩
    · intro b hb
      rw [hs.1 b hb]
      show visible (if matchesQuery env (env.toLowerCase p.searchValue) b then "flex" else "none")
        = matchesQuery env (env.toLowerCase p.searchValue) b
      cases matchesQuery env (env.toLowerCase p.searchValue) b <;> rfl
    · rw [hs.2.1]
      cases (bookmarksIn (settlePair env (env.toLowerCase p.searchValue) y).2).any
        (fun b => visible b.display) <;> rfl
  · intro hnone x hx
    rw [foldersIn_searchInputHandler] at hx
    obtain ⟨y, hy, rfl⟩ := List.mem_map.mp hx
    have hsub : ∀ b ∈ bookmarksIn y.2, b ∈ bookmarksIn p.dom :=
      fun b hb => bookmarksIn_of_folder p.dom y hy b hb
    have hany : (bookmarksIn y.2).any (matchesQuery env (env.toLowerCase p.searchValue)) =
        false := by
      rw [List.any_eq_false]
      intro b hb
      simp [hnone b (hsub b hb)]
    simp [settlePair, hany, visible]

theorem search_filter_visibility_witness :
    (∀ x ∈ foldersIn
        (searchInputHandler (asciiBrowser fun _ _ => false) ⟨"ZZZ", workPlayDom⟩).dom,
      visible x.1.display = false) ∧
    (foldersIn
        (searchInputHandler (asciiBrowser fun _ _ => false) ⟨"emai", workPlayDom⟩).dom).map
        (fun x => (x.1.heading, visible x.1.display,
          (bookmarksIn x.2).map fun b => (b.text, visible b.display))) =
      [(none, true, [("Email", true), ("Docs", false), ("Chess", false)]),
       (some "Work", true, [("Email", true), ("Docs", false)]),
       (some "Play", false, [("Chess", false)])] :=
  ⟨(search_filter_visibility (asciiBrowser fun _ _ => false) ⟨"ZZZ", workPlayDom⟩).2.2.2.1
      (by decide),
   (search_filter_visibility (asciiBrowser fun _ _ => false) ⟨"", []⟩).2.2.2.2
      (fun _ _ => false) rfl rfl⟩

/-! ### SearchFilter: the empty query (C4) -/

theorem onload_noLooseBookmark (env : Browser) (store : Storage) (root : BookmarkNode)
    (dom : List Elem) (hurl : hasUrl root = false) (h : onload env store [root] = some dom) :
    noLooseBookmark dom = true := by
  rcases root with ⟨i, t, u, _ | _ | ⟨c, cs⟩⟩
  · simp [onload] at h
  · simp [onload, createBookmarks, countFolders] at h
    subst h
    rfl
  · have hu : truthy u = false := hurl
    simp only [onload, createBookmarks] at h
    split at h
    · cases h
      rfl
    · have hnil : showBookmarks env (countFolders (c :: cs)) store [] = some [] := by
        rw [showBookmarks]
      rw [showBookmarks, showNode, hnil] at h
      generalize showBookmarks env (countFolders (c :: cs)) store (c :: cs) = K at h
      cases K with
      | none => simp [hu] at h
      | some kids =>
        obtain ⟨f, hf⟩ := createFolderForBookmarks_is_folder env (countFolders (c :: cs)) store
          ⟨i, t, u, some (c :: cs)⟩ kids
        simp only [hu, hf, Bool.false_eq_true, if_false, List.nil_append, List.append_nil,
          Option.some.injEq] at h
        subst h
        rfl

/-- C4, as stated, fails: for the rendered tree Shelf (whose only child is an
empty folder) and Work (one bookmark), the input listener run on the empty query
leaves the folder Shelf hidden. -/
theorem empty_query_hides_bookmarkless_folder :
    onload (asciiBrowser fun _ _ => false) emptyStorage [nestedEmptyRoot] = some nestedEmptyDom ∧
    (foldersIn nestedEmptyDom).map (fun x => (x.1.heading, visible x.1.display)) =
      [(none, true), (some "Shelf", true), (some "Work", true)] ∧
    (foldersIn (searchInputHandler (asciiBrowser fun _ _ => false)
        ⟨"", nestedEmptyDom⟩).dom).map (fun x => (x.1.heading, visible x.1.display)) =
      [(none, true), (some "Shelf", false), (some "Work", true)] :=
  ⟨rfl, by decide, by decide⟩

/-- C4, amended: after the input listener has run on the empty query, every
bookmark element below a folder element is visible (every bookmark element of
the document, when none sits outside a folder, as in every rendering of a tree
whose root is a folder), and a folder element is visible exactly when at least
one bookmark element lies below it, at any depth; headings, text and href are
left as they were. -/
theorem empty_query_shows_bookmarks (env : Browser) (p : Page)
    (hq : env.toLowerCase p.searchValue = "") :
    (∀ x ∈ foldersIn (searchInputHandler env p).dom,
      (∀ b ∈ bookmarksIn x.2, visible b.display = true) ∧
      visible x.1.display = !(bookmarksIn x.2).isEmpty) ∧
    (noLooseBookmark p.dom = true →
      ∀ b ∈ bookmarksIn (searchInputHandler env p).dom, visible b.display = true) ∧
    (∀ (store : Storage) (root : BookmarkNode) (dom : List Elem),
      hasUrl root = false → onload env store [root] = some dom → noLooseBookmark dom = true) ∧
    (foldersIn (searchInputHandler env p).dom).map
        (fun x => (x.1.heading, (bookmarksIn x.2).map fun b => (b.text, b.href))) =
      (foldersIn p.dom).map
        (fun x => (x.1.heading, (bookmarksIn x.2).map fun b => (b.text, b.href))) := by
  refine ⟨?_, ?_, ?_, ?_⟩
  · intro x hx
    rw [foldersIn_searchInputHandler, hq] at hx
    obtain ⟨y, _, rfl⟩ := List.mem_map.mp hx
    have hs := settlePair_spec env "" y
    have hb : bookmarksIn (settlePair env "" y).2 = (bookmarksIn y.2).map (filtered env "") :=
      bookmarksIn_settleIn env "" y.2
    refine ⟨?_, ?_⟩
    · intro b hbm
      rw [hs.1 b hbm, matchesQuery_empty]
      rfl
    · have hany : (bookmarksIn y.2).any (matchesQuery env "") = !(bookmarksIn y.2).isEmpty := by
        cases bookmarksIn y.2 with
        | nil => rfl
        | cons a l => simp [matchesQuery_empty]
      rw [hs.2.1, hs.2.2, hany, hb]
      cases bookmarksIn y.2 <;> rfl
  · intro hloose b hb
    simp only [searchInputHandler, filterFolders_eq_settleTop, hq,
      bookmarksIn_map_settleTop env "" p.dom hloose] at hb
    obtain ⟨a, _, rfl⟩ := List.mem_map.mp hb
    rw [visible_filtered, matchesQuery_empty]
  · intro store root dom hurl h
    exact onload_noLooseBookmark env store root dom hurl h
  · rw [foldersIn_searchInputHandler]
    exact folder_projection_settlePair env _ _

theorem empty_query_shows_bookmarks_witness :
    (∀ x ∈ foldersIn (searchInputHandler (asciiBrowser fun _ _ => false)
        ⟨"", nestedEmptyDom⟩).dom,
      (∀ b ∈ bookmarksIn x.2, visible b.display = true) ∧
      visible x.1.display = !(bookmarksIn x.2).isEmpty) ∧
    (∀ b ∈ bookmarksIn (searchInputHandler (asciiBrowser fun _ _ => false)
        ⟨"", nestedEmptyDom⟩).dom, visible b.display = true) :=
  have h := empty_query_shows_bookmarks (asciiBrowser fun _ _ => false) ⟨"", nestedEmptyDom⟩
    (by decide)
  ⟨h.1, h.2.1 (by decide)⟩

/-! ### Folder title click: collapse state and bulk open (C5, C6) -/

theorem createFolderForBookmarks_with_listener (env : Browser) (folderCount : Nat)
    (store : Storage) (node : BookmarkNode) (kids : List Elem) (t : String)
    (hcount : folderCount > 1) (htitle : node.title = some t) (hne : t ≠ "")
    (hbar : t ≠ "Favorites Bar") (hbarZh : t ≠ "收藏夹栏") :
    createFolderForBookmarks env folderCount store node kids =
      .folder
        { heading := some t, hint := some (keyText env), listener := some node
          marginTop := "", display := ""
          containerDisplay := if store.getItem t == some "collapsed" then "none" else "" }
        kids := by
  simp [createFolderForBookmarks, hcount, htitle, truthy, hne, hbar, hbarZh]

theorem folderTitleClick_toggles (node : BookmarkNode) (event : ClickEvent) (d : String)
    (s : Storage) :
    visible (folderTitleClick node event d s).containerDisplay = !visible d ∧
    (folderTitleClick node event d s).store =
      s.setItem (storageKey node)
        (if visible (folderTitleClick node event d s).containerDisplay then "expanded"
         else "collapsed") := by
  by_cases hd : d = "none"
  · subst hd
    cases hm : (event.ctrlKey || event.metaKey) <;>
      simp [folderTitleClick, hm, visible]
  · cases hm : (event.ctrlKey || event.metaKey) <;>
      simp [folderTitleClick, hm, visible, hd]

theorem reload_container_visible (env : Browser) (folderCount : Nat) (store : Storage)
    (node : BookmarkNode) (kids : List Elem) (t : String)
    (hcount : folderCount > 1) (htitle : node.title = some t) (hne : t ≠ "")
    (hbar : t ≠ "Favorites Bar") (hbarZh : t ≠ "收藏夹栏") :
    visible (containerDisplayOf (createFolderForBookmarks env folderCount store node kids)) =
      !(store.getItem t == some "collapsed") := by
  rw [createFolderForBookmarks_with_listener env folderCount store node kids t hcount htitle hne
    hbar hbarZh]
  cases h : (store.getItem t == some "collapsed") <;> simp [containerDisplayOf, visible, h]

theorem getItem_setItem_state (s : Storage) (t : String) (b : Bool) :
    ((s.setItem t (if b then "expanded" else "collapsed")).getItem t == some "collapsed") = !b := by
  cases b <;> simp [Storage.setItem, Storage.getItem]

theorem bulkOpen_eq_filter :
    ∀ cs : List BookmarkNode,
      bulkOpen cs = (cs.filter hasUrl).map fun c => c.url.getD ""
  | [] => rfl
  | c :: cs => by
    by_cases h : truthy c.url = true
    · simp [bulkOpen, hasUrl, h, bulkOpen_eq_filter cs]
    · simp [bulkOpen, hasUrl, h, bulkOpen_eq_filter cs]

/-- C5: a folder rendered with folder count above 1 and a non-empty title other
than the two favourites-bar titles carries the click listener; a click flips its
child container between shown and hidden and stores, under the folder title,
`collapsed` when the container is now hidden and `expanded` when it is now
shown; rendering the folder again against that store gives a container that is
hidden exactly when it was hidden after the click, also when the height was
saved in between (title other than `savedHeight`); a later click on a second
folder of the same title writes the same key and decides how both folders are
rendered next. -/
theorem collapse_state_persists_by_title (env : Browser) (folderCount : Nat) (store : Storage)
    (node : BookmarkNode) (kids : List Elem) (t : String) (event : ClickEvent)
    (hcount : folderCount > 1) (htitle : node.title = some t) (hne : t ≠ "")
    (hbar : t ≠ "Favorites Bar") (hbarZh : t ≠ "收藏夹栏") :
    ∃ f : FolderAttrs,
      createFolderForBookmarks env folderCount store node kids = .folder f kids ∧
      f.listener = some node ∧
      ∀ (d : String) (s : Storage),
        clickTitle event s (.folder { f with containerDisplay := d } kids) =
          some (.folder
            { f with containerDisplay := (folderTitleClick node event d s).containerDisplay } kids,
            folderTitleClick node event d s) ∧
        visible (folderTitleClick node event d s).containerDisplay = !visible d ∧
        (folderTitleClick node event d s).store =
          s.setItem t
            (if visible (folderTitleClick node event d s).containerDisplay then "expanded"
             else "collapsed") ∧
        (∀ kids1 : List Elem,
          visible (containerDisplayOf (createFolderForBookmarks env folderCount
            (folderTitleClick node event d s).store node kids1)) =
          visible (folderTitleClick node event d s).containerDisplay) ∧
        (∀ (clientHeight : Int) (kids1 : List Elem), t ≠ "savedHeight" →
          visible (containerDisplayOf (createFolderForBookmarks env folderCount
            (saveCurrentHeight clientHeight (folderTitleClick node event d s).store) node kids1)) =
          visible (folderTitleClick node event d s).containerDisplay) ∧
        (∀ (node2 : BookmarkNode) (kids1 kids2 : List Elem) (event2 : ClickEvent) (d2 : String),
          node2.title = some t →
          (folderTitleClick node2 event2 d2 (folderTitleClick node event d s).store).store =
            (folderTitleClick node event d s).store.setItem t
              (if visible (folderTitleClick node2 event2 d2
                  (folderTitleClick node event d s).store).containerDisplay
               then "expanded" else "collapsed") ∧
          visible (containerDisplayOf (createFolderForBookmarks env folderCount
            (folderTitleClick node2 event2 d2 (folderTitleClick node event d s).store).store
            node kids1)) =
            visible (folderTitleClick node2 event2 d2
              (folderTitleClick node event d s).store).containerDisplay ∧
          visible (containerDisplayOf (createFolderForBookmarks env folderCount
            (folderTitleClick node2 event2 d2 (folderTitleClick node event d s).store).store
            node2 kids2)) =
            visible (folderTitleClick node2 event2 d2
              (folderTitleClick node event d s).store).containerDisplay) := by
  have hkey : storageKey node = t := by simp [storageKey, htitle]
  refine ⟨_, createFolderForBookmarks_with_listener env folderCount store node kids t hcount
    htitle hne hbar hbarZh, rfl, ?_⟩
  intro d s
  have htog := folderTitleClick_toggles node event d s
  rw [hkey] at htog
  refine ⟨rfl, htog.1, htog.2, ?_, ?_, ?_⟩
  · intro kids1
    rw [reload_container_visible env folderCount _ node kids1 t hcount htitle hne hbar hbarZh]
    rw [htog.2, getItem_setItem_state]
    simp
  · intro clientHeight kids1 hsaved
    rw [reload_container_visible env folderCount _ node kids1 t hcount htitle hne hbar hbarZh]
    have : (saveCurrentHeight clientHeight (folderTitleClick node event d s).store).getItem t =
        (folderTitleClick node event d s).store.getItem t := by
      simp [saveCurrentHeight, Storage.setItem, Storage.getItem, hsaved]
    rw [this, htog.2, getItem_setItem_state]
    simp
  · intro node2 kids1 kids2 event2 d2 htitle2
    have hkey2 : storageKey node2 = t := by simp [storageKey, htitle2]
    have htog2 := folderTitleClick_toggles node2 event2 d2 (folderTitleClick node event d s).store
    rw [hkey2] at htog2
    refine ⟨htog2.2, ?_, ?_⟩
    · rw [reload_container_visible env folderCount _ node kids1 t hcount htitle hne hbar hbarZh]
      rw [htog2.2, getItem_setItem_state]
      simp
    · rw [reload_container_visible env folderCount _ node2 kids2 t hcount htitle2 hne hbar hbarZh]
      rw [htog2.2, getItem_setItem_state]
      simp

theorem collapse_state_persists_by_title_witness :
    visible (folderTitleClick workFolder plainClick "" emptyStorage).containerDisplay =
      !visible "" ∧
    (folderTitleClick workFolder plainClick "" emptyStorage).store =
      emptyStorage.setItem "Work"
        (if visible (folderTitleClick workFolder plainClick "" emptyStorage).containerDisplay
         then "expanded" else "collapsed") ∧
    visible (containerDisplayOf (createFolderForBookmarks (asciiBrowser fun _ _ => false) 2
      (folderTitleClick workFolder plainClick "" emptyStorage).store workFolder [])) =
      visible (folderTitleClick workFolder plainClick "" emptyStorage).containerDisplay := by
  obtain ⟨f, _, _, h⟩ := collapse_state_persists_by_title (asciiBrowser fun _ _ => false) 2
    emptyStorage workFolder [] "Work" plainClick (by decide) rfl (by decide) (by decide)
    (by decide)
  exact ⟨(h "" emptyStorage).2.1, (h "" emptyStorage).2.2.1, (h "" emptyStorage).2.2.2.1 []⟩

/-- C6: for a folder whose title carries the click listener, a click with the
modifier held (Command on a Mac, Ctrl elsewhere) issues exactly the urls of the
direct children that have a url, one `chrome.tabs.create` each, in the order of
the children, and the same click flips the child container and stores the new
collapse state under the folder title. -/
theorem modifier_click_opens_direct_children (env : Browser) (folderCount : Nat)
    (store : Storage) (node : BookmarkNode) (kids : List Elem) (t : String) (event : ClickEvent)
    (hcount : folderCount > 1) (htitle : node.title = some t) (hne : t ≠ "")
    (hbar : t ≠ "Favorites Bar") (hbarZh : t ≠ "收藏夹栏")
    (hmod : modifierHeld env event = true) :
    ∃ f : FolderAttrs,
      createFolderForBookmarks env folderCount store node kids = .folder f kids ∧
      f.listener = some node ∧
      ∀ (d : String) (s : Storage),
        clickTitle event s (.folder { f with containerDisplay := d } kids) =
          some (.folder
            { f with containerDisplay := (folderTitleClick node event d s).containerDisplay } kids,
            folderTitleClick node event d s) ∧
        (folderTitleClick node event d s).tabs =
          ((node.children.getD []).filter hasUrl).map (fun c => c.url.getD "") ∧
        (folderTitleClick node event d s).tabs.length =
          (node.children.getD []).countP hasUrl ∧
        (folderTitleClick node event d s).defaultPrevented = true ∧
        visible (folderTitleClick node event d s).containerDisplay = !visible d ∧
        (folderTitleClick node event d s).store =
          s.setItem t
            (if visible (folderTitleClick node event d s).containerDisplay then "expanded"
             else "collapsed") := by
  have hkey : storageKey node = t := by simp [storageKey, htitle]
  have hheld : (event.ctrlKey || event.metaKey) = true := by
    unfold modifierHeld at hmod
    split at hmod <;> simp [hmod]
  refine ⟨_, createFolderForBookmarks_with_listener env folderCount store node kids t hcount
    htitle hne hbar hbarZh, rfl, ?_⟩
  intro d s
  have htog := folderTitleClick_toggles node event d s
  rw [hkey] at htog
  have htabs : (folderTitleClick node event d s).tabs =
      ((node.children.getD []).filter hasUrl).map (fun c => c.url.getD "") := by
    simp only [folderTitleClick, hheld, if_true]
    exact bulkOpen_eq_filter _
  refine ⟨rfl, htabs, ?_, ?_, htog.1, htog.2⟩
  · rw [htabs, List.length_map, List.countP_eq_length_filter]
  · simp only [folderTitleClick, hheld, if_true]

theorem modifier_click_opens_direct_children_witness :
    (folderTitleClick workFolder ctrlClick "" emptyStorage).tabs =
      ((workFolder.children.getD []).filter hasUrl).map (fun c => c.url.getD "") ∧
    (folderTitleClick workFolder ctrlClick "" emptyStorage).tabs =
      ["https://mail.example.com/", "https://docs.example.com/"] ∧
    visible (folderTitleClick workFolder ctrlClick "" emptyStorage).containerDisplay =
      !visible "" := by
  obtain ⟨f, _, _, h⟩ := modifier_click_opens_direct_children (asciiBrowser fun _ _ => false) 2
    emptyStorage workFolder [] "Work" ctrlClick (by decide) rfl (by decide) (by decide)
    (by decide) (by decide)
  exact ⟨(h "" emptyStorage).2.1, by decide, (h "" emptyStorage).2.2.2.2.1⟩

/-! ### TitleResolver (C7) -/

theorem splitGo_zero_cons (sep : List Char) (a : Char) (s : List Char) :
    splitGo sep 0 (a :: s) =
      if sep.isPrefixOf (a :: s) then [] :: splitGo sep (sep.length - 1) s
      else
        match splitGo sep 0 s with
        | seg :: segs => (a :: seg) :: segs
        | [] => [[a]] := by
  rw [splitGo]

theorem splitGo_succ_cons (sep : List Char) (k : Nat) (a : Char) (s : List Char) :
    splitGo sep (k + 1) (a :: s) = splitGo sep k s := by
  rw [splitGo]

theorem splitGo_single_head (c : Char) :
    ∀ s : List Char, ∃ tl, splitGo [c] 0 s = s.takeWhile (fun x => x != c) :: tl
  | [] => ⟨[], rfl⟩
  | a :: s => by
    obtain ⟨tl, ih⟩ := splitGo_single_head c s
    by_cases h : c = a
    · subst h
      refine ⟨splitGo [c] 0 s, ?_⟩
      rw [splitGo_zero_cons]
      simp [List.isPrefixOf]
    · have h2 : a ≠ c := fun e => h e.symm
      refine ⟨tl, ?_⟩
      rw [splitGo_zero_cons, ih]
      simp [List.isPrefixOf, h, h2]

theorem splitGo_slashes_none :
    ∀ s : List Char, afterFirstSlashes s = none → splitGo ['/', '/'] 0 s = [s]
  | [], _ => rfl
  | [a], _ => by
    rw [splitGo_zero_cons]
    simp [List.isPrefixOf, splitGo]
  | a :: b :: rest, h => by
    by_cases hab : a = '/' ∧ b = '/'
    · simp [afterFirstSlashes, hab] at h
    · simp only [afterFirstSlashes, hab, if_false] at h
      have ih := splitGo_slashes_none (b :: rest) h
      have hp : List.isPrefixOf ['/', '/'] (a :: b :: rest) = false := by
        simp only [List.isPrefixOf, Bool.and_true]
        by_cases ha : a = '/'
        · have hb : b ≠ '/' := fun e => hab ⟨ha, e⟩
          simp [ha, Ne.symm hb]
        · simp [Ne.symm ha]
      rw [splitGo_zero_cons, hp, ih]
      rfl

theorem splitGo_slashes_some :
    ∀ s r : List Char, afterFirstSlashes s = some r →
      ∃ pre, splitGo ['/', '/'] 0 s = pre :: splitGo ['/', '/'] 0 r
  | [], _, h => by simp [afterFirstSlashes] at h
  | [a], _, h => by simp [afterFirstSlashes] at h
  | a :: b :: rest, r, h => by
    by_cases hab : a = '/' ∧ b = '/'
    · simp only [afterFirstSlashes, hab, and_self, if_true, Option.some.injEq] at h
      subst h
      obtain ⟨rfl, rfl⟩ := hab
      refine ⟨[], ?_⟩
      rw [splitGo_zero_cons]
      have hp : List.isPrefixOf ['/', '/'] ('/' :: '/' :: rest) = true := by
        simp [List.isPrefixOf]
      rw [if_pos hp]
      exact congrArg (List.cons []) (splitGo_succ_cons ['/', '/'] 0 '/' rest)
    · simp only [afterFirstSlashes, hab, if_false] at h
      obtain ⟨pre, ih⟩ := splitGo_slashes_some (b :: rest) r h
      have hp : List.isPrefixOf ['/', '/'] (a :: b :: rest) = false := by
        simp only [List.isPrefixOf, Bool.and_true]
        by_cases ha : a = '/'
        · have hb : b ≠ '/' := fun e => hab ⟨ha, e⟩
          simp [ha, Ne.symm hb]
        · simp [Ne.symm ha]
      refine ⟨a :: pre, ?_⟩
      rw [splitGo_zero_cons, hp, ih]
      rfl

theorem splitGo_slashes_head_takeWhile :
    ∀ r : List Char, ∃ hd tl, splitGo ['/', '/'] 0 r = hd :: tl ∧
      hd.takeWhile (fun x => x != '/') = r.takeWhile (fun x => x != '/')
  | [] => ⟨[], [], rfl, rfl⟩
  | a :: r => by
    obtain ⟨hd, tl, ih, ht⟩ := splitGo_slashes_head_takeWhile r
    by_cases hp : List.isPrefixOf ['/', '/'] (a :: r) = true
    · have ha : a = '/' := by
        cases r with
        | nil => simp [List.isPrefixOf] at hp
        | cons b r => simp [List.isPrefixOf] at hp; exact hp.1.symm
      subst ha
      refine ⟨[], splitGo ['/', '/'] 1 r, ?_, by simp⟩
      rw [splitGo_zero_cons, hp]
      rfl
    · refine ⟨a :: hd, tl, ?_, ?_⟩
      · rw [splitGo_zero_cons, ih]
        simp [hp]
      by_cases ha : a = '/'
      · simp [ha]
      · simp [List.takeWhile_cons, ha, ht]

theorem split_single_first (s : String) (c : Char) :
    (split s (String.mk [c]))[0]? = some (String.mk (s.data.takeWhile (fun x => x != c))) := by
  obtain ⟨tl, h⟩ := splitGo_single_head c s.data
  simp [split, h]

theorem split_slashes_second (url : String) :
    (split url "//")[1]? =
      (afterFirstSlashes url.data).bind fun r =>
        (splitGo ['/', '/'] 0 r).head?.map String.mk := by
  cases h : afterFirstSlashes url.data with
  | none =>
    have := splitGo_slashes_none url.data h
    simp [split, show "//".data = ['/', '/'] from rfl, this]
  | some r =>
    obtain ⟨pre, hp⟩ := splitGo_slashes_some url.data r h
    obtain ⟨hd, tl, hh, _⟩ := splitGo_slashes_head_takeWhile r
    simp [split, show "//".data = ['/', '/'] from rfl, hp, hh]

theorem internal_scheme_has_slashes (url : String)
    (h : (startsWith url "chrome://" || startsWith url "edge://") = true) :
    ∃ r, afterFirstSlashes url.data = some r := by
  rw [Bool.or_eq_true] at h
  rcases h with h | h
  · obtain ⟨rest, hr⟩ := List.isPrefixOf_iff_prefix.mp h
    exact ⟨rest, by rw [← hr]; simp [afterFirstSlashes]⟩
  · obtain ⟨rest, hr⟩ := List.isPrefixOf_iff_prefix.mp h
    exact ⟨rest, by rw [← hr]; simp [afterFirstSlashes]⟩

theorem split_dot_www (host : String) (h : startsWith host "www." = true) :
    (split host ".")[1]? =
      some (String.mk ((host.data.drop 4).takeWhile (fun x => x != '.'))) := by
  obtain ⟨rest, hr⟩ := List.isPrefixOf_iff_prefix.mp h
  obtain ⟨tl, ht⟩ := splitGo_single_head '.' rest
  have hd : host.data = 'w' :: 'w' :: 'w' :: '.' :: rest := hr.symm
  have hs : splitGo ['.'] 0 host.data = ['w', 'w', 'w'] :: splitGo ['.'] 0 rest := by
    rw [hd]
    simp [splitGo_zero_cons, List.isPrefixOf]
  have hsp : split host "." = (splitGo ['.'] 0 host.data).map String.mk := rfl
  rw [hsp, hs, ht, hd]
  simp

theorem getTitleFromUrl_refines (env : Browser) (url : String) :
    getTitleFromUrl env url = resolveTitle env url := by
  unfold getTitleFromUrl resolveTitle
  split
  · rw [split_slashes_second]
    cases h : afterFirstSlashes url.data with
    | none => rfl
    | some r =>
      obtain ⟨hd, tl, hh, ht⟩ := splitGo_slashes_head_takeWhile r
      have h0 := split_single_first (String.mk hd) '/'
      rw [show (String.mk ['/']) = "/" from rfl] at h0
      simp only [Option.some_bind, hh, List.head?_cons, Option.map_some', h0, ht]
  · cases hu : env.urlHost url with
    | none => rfl
    | some host =>
      by_cases hw : startsWith host "www." = true
      · simp only [hw, if_true, split_dot_www host hw, Option.map_some']
      · have h0 := split_single_first host '.'
        rw [show (String.mk ['.']) = "." from rfl] at h0
        simp only [hw, if_false, h0, Option.map_some', Bool.false_eq_true]

/-- C7: `getTitleFromUrl` equals the reference definition `resolveTitle`: for a
url starting with `chrome://` or `edge://` it returns the segment between the
first `//` and the following `/` (or the end of the string) with its first
character upper-cased; for any other url the `URL` parser accepts it returns the
first label of the host, after a leading `www.` is removed, with its first
character upper-cased.  `https://www.example.com/page` gives `Example` and
`chrome://settings` gives `Settings`. -/
theorem getTitleFromUrl_matches_reference (env : Browser) (url : String) :
    getTitleFromUrl env url = resolveTitle env url ∧
    ((startsWith url "chrome://" || startsWith url "edge://") = true →
      ∃ r, afterFirstSlashes url.data = some r ∧
        getTitleFromUrl env url =
          some (capitalize env (String.mk (r.takeWhile (fun c => c != '/'))))) ∧
    ((startsWith url "chrome://" || startsWith url "edge://") = false →
      ∀ host, env.urlHost url = some host →
        getTitleFromUrl env url =
          some (capitalize env (String.mk
            ((if startsWith host "www." then host.data.drop 4 else host.data).takeWhile
              (fun c => c != '.'))))) ∧
    (env.urlHost "https://www.example.com/page" = some "www.example.com" →
      env.toUpperCase "e" = "E" →
      getTitleFromUrl env "https://www.example.com/page" = some "Example") ∧
    (env.toUpperCase "s" = "S" → getTitleFromUrl env "chrome://settings" = some "Settings") := by
  refine ⟨getTitleFromUrl_refines env url, ?_, ?_, ?_, ?_⟩
  · intro h
    obtain ⟨r, hr⟩ := internal_scheme_has_slashes url h
    refine ⟨r, hr, ?_⟩
    rw [getTitleFromUrl_refines]
    simp [resolveTitle, h, hr]
  · intro h host hh
    rw [getTitleFromUrl_refines]
    simp [resolveTitle, h, hh]
  · intro hh hu
    rw [getTitleFromUrl_refines]
    have hi : (startsWith "https://www.example.com/page" "chrome://" ||
        startsWith "https://www.example.com/page" "edge://") = false := by decide
    have hw : startsWith "www.example.com" "www." = true := by decide
    have hc : capitalize env "example" = env.toUpperCase "e" ++ "xample" := rfl
    have hl : String.mk (("www.example.com".data.drop 4).takeWhile (fun c => c != '.')) =
        "example" := by decide
    simp only [resolveTitle, hi, hh, Option.map_some', hw, if_true, hl, hc, hu,
      Bool.false_eq_true, if_false]
    rfl
  · intro hu
    rw [getTitleFromUrl_refines]
    have hi : (startsWith "chrome://settings" "chrome://" ||
        startsWith "chrome://settings" "edge://") = true := by decide
    have ha : afterFirstSlashes "chrome://settings".data = some "settings".data := by decide
    have hc : capitalize env "settings" = env.toUpperCase "s" ++ "ettings" := rfl
    have hl : String.mk ("settings".data.takeWhile (fun c => c != '/')) = "settings" := by
      decide
    simp only [resolveTitle, hi, if_true, ha, Option.map_some', hl, hc, hu]
    rfl

theorem getTitleFromUrl_matches_reference_witness :
    getTitleFromUrl (asciiBrowser fun _ _ => false) "https://www.example.com/page" =
      some "Example" ∧
    getTitleFromUrl (asciiBrowser fun _ _ => false) "chrome://settings" = some "Settings" ∧
    getTitleFromUrl (asciiBrowser fun _ _ => false) "edge://flags/#x" = some "Flags" :=
  ⟨(getTitleFromUrl_matches_reference (asciiBrowser fun _ _ => false) "").2.2.2.1
      (by decide) (by decide),
   (getTitleFromUrl_matches_reference (asciiBrowser fun _ _ => false) "").2.2.2.2 (by decide),
   by
    obtain ⟨r, hr, h⟩ := (getTitleFromUrl_matches_reference (asciiBrowser fun _ _ => false)
      "edge://flags/#x").2.1 (by decide)
    rw [h]
    have : r = "flags/#x".data := by
      have h2 : afterFirstSlashes "edge://flags/#x".data = some "flags/#x".data := by decide
      rw [h2] at hr
      exact (Option.some.inj hr).symm
    subst this
    decide⟩

/-! ### HeightPersistence (C8) -/

/-- C8: for a stored integer height `h`, the body height set on load is
`min h 618` pixels when `h > 30`; when `h ≤ 30` or nothing is stored the body
height is left as it was; so every height that gets applied lies in [30, 618]. -/
theorem saved_height_clamped_on_read (h : Int) (before : Option Int) :
    (h > 30 → setBodyHeightFromStorage (some h) before = some (min h 618)) ∧
    (h ≤ 30 → setBodyHeightFromStorage (some h) before = before) ∧
    setBodyHeightFromStorage none before = before ∧
    (∀ saved applied, setBodyHeightFromStorage saved none = some applied →
      30 ≤ applied ∧ applied ≤ 618 ∧ ∃ s, saved = some s ∧ applied = min s 618) := by
  refine ⟨?_, ?_, rfl, ?_⟩
  · intro hh
    by_cases h6 : h > 618
    · simp [setBodyHeightFromStorage, hh, h6, min_eq_right (le_of_lt h6)]
    · simp [setBodyHeightFromStorage, hh, h6, min_eq_left (not_lt.mp h6)]
  · intro hh
    simp [setBodyHeightFromStorage, not_lt.mpr hh]
  · intro saved applied hs
    cases saved with
    | none => simp [setBodyHeightFromStorage] at hs
    | some s =>
      by_cases h3 : s > 30
      · by_cases h6 : s > 618
        · simp [setBodyHeightFromStorage, h3, h6] at hs
          subst hs
          exact ⟨by omega, by omega, s, rfl, (min_eq_right (le_of_lt h6)).symm⟩
        · simp [setBodyHeightFromStorage, h3, h6] at hs
          subst hs
          exact ⟨by omega, by omega, s, rfl, (min_eq_left (not_lt.mp h6)).symm⟩
      · simp [setBodyHeightFromStorage, h3] at hs

theorem saved_height_clamped_on_read_witness :
    setBodyHeightFromStorage (some 700) none = some (min 700 618) ∧
    setBodyHeightFromStorage (some 400) none = some (min 400 618) ∧
    setBodyHeightFromStorage (some 30) none = none :=
  ⟨(saved_height_clamped_on_read 700 none).1 (by decide),
   (saved_height_clamped_on_read 400 none).1 (by decide),
   (saved_height_clamped_on_read 30 none).2.1 (by decide)⟩

/-! ### Escape (C9) -/

mutual
theorem bookmarksIn_showBookmarkItems :
    ∀ es : List Elem,
      bookmarksIn (showBookmarkItems es) =
        (bookmarksIn es).map fun a => { a with display := "flex" }
  | [] => by simp [showBookmarkItems, bookmarksIn]
  | e :: es => by
    simp [showBookmarkItems, bookmarksIn, bookmarksOf_showBookmarkItem e,
      bookmarksIn_showBookmarkItems es]
theorem bookmarksOf_showBookmarkItem :
    ∀ e : Elem,
      bookmarksOf (showBookmarkItem e) =
        (bookmarksOf e).map fun a => { a with display := "flex" }
  | .bookmark a => by simp [showBookmarkItem, bookmarksOf]
  | .folder f kids => by
    simp [showBookmarkItem, bookmarksOf, bookmarksIn_showBookmarkItems kids]
  | .message t => by simp [showBookmarkItem, bookmarksOf]
end

mutual
theorem foldersIn_showBookmarkItems :
    ∀ es : List Elem,
      (foldersIn (showBookmarkItems es)).map Prod.fst = (foldersIn es).map Prod.fst
  | [] => by simp [showBookmarkItems, foldersIn]
  | e :: es => by
    simp [showBookmarkItems, foldersIn, foldersOf_showBookmarkItem e,
      foldersIn_showBookmarkItems es]
theorem foldersOf_showBookmarkItem :
    ∀ e : Elem,
      (foldersOf (showBookmarkItem e)).map Prod.fst = (foldersOf e).map Prod.fst
  | .bookmark a => by simp [showBookmarkItem, foldersOf]
  | .folder f kids => by
    simp [showBookmarkItem, foldersOf, foldersIn_showBookmarkItems kids]
  | .message t => by simp [showBookmarkItem, foldersOf]
end

mutual
theorem bookmarksIn_showFolders :
    ∀ es : List Elem, bookmarksIn (showFolders es) = bookmarksIn es
  | [] => by simp [showFolders, bookmarksIn]
  | e :: es => by
    simp [showFolders, bookmarksIn, bookmarksOf_showFolder e, bookmarksIn_showFolders es]
theorem bookmarksOf_showFolder :
    ∀ e : Elem, bookmarksOf (showFolder e) = bookmarksOf e
  | .bookmark a => by simp [showFolder, bookmarksOf]
  | .folder f kids => by simp [showFolder, bookmarksOf, bookmarksIn_showFolders kids]
  | .message t => by simp [showFolder, bookmarksOf]
end

mutual
theorem foldersIn_showFolders :
    ∀ es : List Elem,
      (foldersIn (showFolders es)).map Prod.fst =
        (foldersIn es).map fun x => { x.1 with display := "block" }
  | [] => by simp [showFolders, foldersIn]
  | e :: es => by
    simp [showFolders, foldersIn, foldersOf_showFolder e, foldersIn_showFolders es]
theorem foldersOf_showFolder :
    ∀ e : Elem,
      (foldersOf (showFolder e)).map Prod.fst =
        (foldersOf e).map fun x => { x.1 with display := "block" }
  | .bookmark a => by simp [showFolder, foldersOf]
  | .folder f kids => by simp [showFolder, foldersOf, foldersIn_showFolders kids]
  | .message t => by simp [showFolder, foldersOf]
end

/-- C9: from any page state, a keydown with key Escape empties the query field
and leaves every bookmark element with display flex and every folder element
with display block, hence visible, changing nothing else of them; a
keydown with another key changes neither the query nor the document.  The
listener takes no matcher: it does not re-filter, and on a folder without
bookmarks its result differs from running the input listener on the empty
query. -/
theorem escape_restores_visibility (key : String) (p : Page) :
    (key = "Escape" →
      (keydown key p).1.searchValue = "" ∧
      bookmarksIn (keydown key p).1.dom =
        (bookmarksIn p.dom).map (fun a => { a with display := "flex" }) ∧
      (foldersIn (keydown key p).1.dom).map Prod.fst =
        (foldersIn p.dom).map (fun x => { x.1 with display := "block" }) ∧
      (∀ b ∈ bookmarksIn (keydown key p).1.dom, visible b.display = true) ∧
      (∀ f ∈ foldersIn (keydown key p).1.dom, visible f.1.display = true)) ∧
    (key ≠ "Escape" → keydown key p = (p, false)) ∧
    (∃ (env : Browser) (q : Page),
      (foldersIn (keydown "Escape" q).1.dom).map (fun x => x.1.display) ≠
        (foldersIn (searchInputHandler env { q with searchValue := "" }).dom).map
          (fun x => x.1.display)) := by
  refine ⟨?_, ?_, ?_⟩
  · intro hk
    have hb : bookmarksIn (keydown key p).1.dom =
        (bookmarksIn p.dom).map (fun a => { a with display := "flex" }) := by
      simp [keydown, hk, bookmarksIn_showFolders, bookmarksIn_showBookmarkItems]
    have hf : (foldersIn (keydown key p).1.dom).map Prod.fst =
        (foldersIn p.dom).map (fun x => { x.1 with display := "block" }) := by
      simp only [keydown, hk, beq_self_eq_true, if_true, foldersIn_showFolders]
      have h := congrArg (List.map (fun f : FolderAttrs => { f with display := "block" }))
        (foldersIn_showBookmarkItems p.dom)
      simp only [List.map_map] at h
      exact h
    refine ⟨by simp [keydown, hk], hb, hf, ?_, ?_⟩
    · intro b hb'
      rw [hb] at hb'
      obtain ⟨a, _, rfl⟩ := List.mem_map.mp hb'
      rfl
    · intro f hf'
      have : f.1 ∈ (foldersIn (keydown key p).1.dom).map Prod.fst :=
        List.mem_map.mpr ⟨f, hf', rfl⟩
      rw [hf] at this
      obtain ⟨x, _, hx⟩ := List.mem_map.mp this
      rw [← hx]
      rfl
  · intro hk
    simp [keydown, hk]
  · refine ⟨asciiBrowser fun _ _ => false,
      ⟨"x", [.folder ⟨none, none, none, "8px", "", ""⟩ []]⟩, ?_⟩
    decide

theorem escape_restores_visibility_witness :
    (keydown "Escape" ⟨"emai", [.bookmark ⟨"Docs", "https://docs.example.com/", "none"⟩]⟩).1.searchValue
      = "" ∧
    keydown "a" ⟨"emai", []⟩ = (⟨"emai", []⟩, false) :=
  ⟨((escape_restores_visibility "Escape"
      ⟨"emai", [.bookmark ⟨"Docs", "https://docs.example.com/", "none"⟩]⟩).1 rfl).1,
   (escape_restores_visibility "a" ⟨"emai", []⟩).2.1 (by decide)⟩

end Maple
